import Mathlib

/-!
Shallow embedding of the curvefever simulation engine
(src/curvefever_game/src/world.rs).  `f32` is modelled as `ℝ`,
`SystemTime`/`Duration` as real-valued seconds, and the thread-local RNG as
an explicit oracle (`Rng`) of pre-drawn samples.  Every definition mirrors
the corresponding Rust item; panics (`expect`, out-of-range `Vec::remove`)
are modelled by `Option`, with `none` standing for a panic.
-/

namespace Curvefever

noncomputable section

open Real

open scoped Classical

/-- Rust `f32::atan2(y, x)` over the reals (IEEE quadrant convention,
with `atan2 0 0 = 0` as for positive zeros). -/
def atan2 (y x : ℝ) : ℝ :=
  if 0 < x then Real.arctan (y / x)
  else if x < 0 then
    (if 0 ≤ y then Real.arctan (y / x) + Real.pi else Real.arctan (y / x) - Real.pi)
  else
    (if 0 < y then Real.pi / 2 else if y < 0 then -(Real.pi / 2) else 0)

/-- Rust `f32::rem_euclid` over the reals: the representative of `a` modulo
`b` in `[0, b)` for `b > 0`. -/
def remEuclid (a b : ℝ) : ℝ := a - b * ⌊a / b⌋

/-- egui `Pos2` (also standing in for `Vec2`). -/
structure Pos2 where
  x : ℝ
  y : ℝ

/-- egui `Pos2::distance`. -/
def Pos2.distance (a b : Pos2) : ℝ :=
  Real.sqrt ((b.x - a.x) ^ 2 + (b.y - a.y) ^ 2)

/-- Constant `UPDATE_TIME = Duration::from_nanos(1_000_000_000 / 240)` in
seconds (the nanosecond count is truncated integer division). -/
def UPDATE_TIME : ℝ := 4166666 / 1000000000

/-- Constant `WORLD_SIZE`. -/
def WORLD_SIZE : Pos2 := ⟨1280, 720⟩

def MIN_PLAYER_WALL_DIST : ℝ := 150
def MIN_PLAYER_DIST : ℝ := 200
def MIN_ITEM_WALL_DIST : ℝ := 40
def MIN_ITEM_DIST : ℝ := 80
def ITEM_SPAWN_RATE : ℝ := 0.48
def ITEM_RADIUS : ℝ := 7.5
def START_DELAY : ℝ := 2
def MAX_ITEMS : ℕ := 8
def GAP_RATE : ℝ := 0.4
def PLAYER_EFFECT_DURATION : ℝ := 5
def PLAYER_EFFECT_DEVIATION_DURATION : ℝ := 1
def GAP_EFFECT_DURATION : ℝ := 0.15
def GAP_EFFECT_DEVIATION_DURATION : ℝ := 0.1
def WORLD_EFFECT_DURATION : ℝ := 10
def WORLD_EFFECT_DEVIATION_DURATION : ℝ := 3
def BASE_SPEED : ℝ := 150
def MIN_SPEED : ℝ := 50
def BASE_THICKNESS : ℝ := 4
def MIN_THICKNESS : ℝ := 1
def BASE_TURNING_RADIUS : ℝ := 50
def MIN_TURNING_RADIUS : ℝ := 25

/-- curvefever_common `Direction`. -/
inductive Direction where
  | straight
  | left
  | right
deriving DecidableEq

/-- Enum `TurnDirection`. -/
inductive TurnDirection where
  | rightTurn
  | leftTurn
deriving DecidableEq

/-- Method `TurnDirection::angle_sign`. -/
def TurnDirection.angle_sign : TurnDirection → ℝ
  | .rightTurn => 1
  | .leftTurn => -1

/-- Trait method `Direction::turning_direction` (impl `DirectionExt`). -/
def Direction.turning_direction : Direction → Option TurnDirection
  | .straight => none
  | .right => some .rightTurn
  | .left => some .leftTurn

/-- Struct `StraightTrailSection`. -/
structure StraightTrailSection where
  start : Pos2
  gap : Bool
  thickness : ℝ
  «end» : Pos2

/-- Struct `ArcTrailSection`. -/
structure ArcTrailSection where
  start_pos : Pos2
  gap : Bool
  thickness : ℝ
  dir : TurnDirection
  radius : ℝ
  player_start_angle : ℝ
  player_end_angle : ℝ

/-- Method `ArcTrailSection::arc_start_angle`. -/
def ArcTrailSection.arc_start_angle (s : ArcTrailSection) : ℝ :=
  s.player_start_angle - Real.pi / 2 * s.dir.angle_sign

/-- Method `ArcTrailSection::arc_end_angle`. -/
def ArcTrailSection.arc_end_angle (s : ArcTrailSection) : ℝ :=
  s.player_end_angle - Real.pi / 2 * s.dir.angle_sign

/-- Method `ArcTrailSection::end_pos`. -/
def ArcTrailSection.end_pos (s : ArcTrailSection) : Pos2 :=
  ⟨s.start_pos.x + (Real.cos s.arc_end_angle - Real.cos s.arc_start_angle) * s.radius,
   s.start_pos.y + (Real.sin s.arc_end_angle - Real.sin s.arc_start_angle) * s.radius⟩

/-- Method `ArcTrailSection::center_pos`. -/
def ArcTrailSection.center_pos (s : ArcTrailSection) : Pos2 :=
  ⟨s.start_pos.x - Real.cos s.arc_start_angle * s.radius,
   s.start_pos.y - Real.sin s.arc_start_angle * s.radius⟩

/-- Enum `TrailSection`. -/
inductive TrailSection where
  | straight (s : StraightTrailSection)
  | arc (s : ArcTrailSection)

/-- Method `TrailSection::dir`. -/
def TrailSection.dir : TrailSection → Direction
  | .straight _ => .straight
  | .arc s => match s.dir with
    | .rightTurn => .right
    | .leftTurn => .left

/-- Method `TrailSection::gap`. -/
def TrailSection.gap : TrailSection → Bool
  | .straight s => s.gap
  | .arc s => s.gap

/-- Method `TrailSection::thickness`. -/
def TrailSection.thickness : TrailSection → ℝ
  | .straight s => s.thickness
  | .arc s => s.thickness

/-- Method `TrailSection::start_pos`. -/
def TrailSection.start_pos : TrailSection → Pos2
  | .straight s => s.start
  | .arc s => s.start_pos

/-- Method `TrailSection::end_pos`. -/
def TrailSection.end_pos : TrailSection → Pos2
  | .straight s => s.«end»
  | .arc s => s.end_pos

/-- Free function `intersects`. -/
def intersects (a b : Pos2) (dist : ℝ) : Bool := a.distance b < dist

/-- Free function `angle`. -/
def angle (a b : Pos2) : ℝ := atan2 (b.y - a.y) (b.x - a.x)

/-- Free function `intersects_straight_trailsection`. -/
def intersects_straight_trailsection (s : StraightTrailSection) (pos : Pos2)
    (dist : ℝ) : Bool :=
  let p1_dist := s.start.distance pos
  let p2_dist := s.«end».distance pos
  let max_dist := 0.5 * s.thickness + dist
  if p1_dist < max_dist ∨ p2_dist < max_dist then true
  else
    let center_line_angle := remEuclid (angle s.start s.«end») (2 * Real.pi)
    let inverse_center_line_angle :=
      remEuclid (center_line_angle + Real.pi) (2 * Real.pi)
    let outer_line_pos_1 : Pos2 :=
      ⟨s.start.x + Real.cos (center_line_angle - Real.pi / 2) * (0.5 * s.thickness + dist),
       s.start.y + Real.sin (center_line_angle - Real.pi / 2) * (0.5 * s.thickness + dist)⟩
    let outer_line_pos_2 : Pos2 :=
      ⟨s.start.x - Real.cos (center_line_angle - Real.pi / 2) * (0.5 * s.thickness + dist),
       s.start.y - Real.sin (center_line_angle - Real.pi / 2) * (0.5 * s.thickness + dist)⟩
    let max_dist := s.«end».distance outer_line_pos_1
    if p1_dist > max_dist ∨ p2_dist > max_dist then false
    else
      let angle_l1 := remEuclid (angle outer_line_pos_1 pos) (2 * Real.pi)
      let angle_l2 := remEuclid (angle outer_line_pos_2 pos) (2 * Real.pi)
      if center_line_angle < inverse_center_line_angle then
        if (angle_l1 > center_line_angle ∧ angle_l1 < inverse_center_line_angle) ≠
            (angle_l2 > center_line_angle ∧ angle_l2 < inverse_center_line_angle) then
          true
        else false
      else
        if (angle_l1 > center_line_angle ∨ angle_l1 < inverse_center_line_angle) ≠
            (angle_l2 > center_line_angle ∨ angle_l2 < inverse_center_line_angle) then
          true
        else false

/-- Free function `intersects_arc_trailsection`. -/
def intersects_arc_trailsection (s : ArcTrailSection) (pos : Pos2)
    (dist : ℝ) : Bool :=
  let p1_dist := s.start_pos.distance pos
  let p2_dist := s.end_pos.distance pos
  let max_dist := 0.5 * s.thickness + dist
  if p1_dist < max_dist ∨ p2_dist < max_dist then true
  else
    let min_dist := s.radius - 0.5 * s.thickness - dist
    let max_dist := s.radius + 0.5 * s.thickness + dist
    let center_pos := s.center_pos
    let arc_center_dist := center_pos.distance pos
    if arc_center_dist < min_dist ∨ arc_center_dist > max_dist then false
    else
      let arc_start_angle :=
        if s.dir = TurnDirection.rightTurn then remEuclid s.arc_start_angle (2 * Real.pi)
        else remEuclid s.arc_end_angle (2 * Real.pi)
      let arc_end_angle :=
        if s.dir = TurnDirection.rightTurn then remEuclid s.arc_end_angle (2 * Real.pi)
        else remEuclid s.arc_start_angle (2 * Real.pi)
      let arc_angle := remEuclid (angle center_pos pos) (2 * Real.pi)
      if arc_start_angle ≤ arc_end_angle then
        if arc_angle > arc_start_angle ∧ arc_angle < arc_end_angle then true else false
      else
        if arc_angle > arc_start_angle ∨ arc_angle < arc_end_angle then true else false

/-- Free function `intersects_trail`. -/
def intersects_trail (pos : Pos2) (dist : ℝ) : List TrailSection → Bool
  | [] => false
  | s :: rest =>
    if s.gap then intersects_trail pos dist rest
    else
      match s with
      | .straight s =>
        if intersects_straight_trailsection s pos dist then true
        else intersects_trail pos dist rest
      | .arc s =>
        if intersects_arc_trailsection s pos dist then true
        else intersects_trail pos dist rest

/-- Free function `intersects_own_trail`, over the list of the player's trail
sections; the loop body is `ownTrailStep`. -/
def ownTrailStep (playerPos : Pos2) (playerThickness : ℝ) (s : TrailSection) : Bool :=
  let min_dist := 0.5 * playerThickness + 0.5 * s.thickness
  let end_dist := playerPos.distance s.end_pos
  let hitSpecial : Bool :=
    if end_dist < min_dist then
      match s with
      | .arc s =>
        let angle_diff := |s.player_start_angle - s.player_end_angle|
        if angle_diff > Real.pi then
          let start_dist := s.start_pos.distance playerPos
          if start_dist < min_dist then true else false
        else false
      | .straight _ => false
    else false
  if hitSpecial then true
  else if end_dist > min_dist then
    intersects_trail playerPos (0.5 * playerThickness) [s]
  else false

/-- Enum `PlayerColor` (the `color32` palette is not needed by the engine
claims; the variant carries through unchanged). -/
inductive PlayerColor where
  | orange | green | purple | cyan | magenta | red | yellow | blue
deriving DecidableEq

/-- Enum `ItemKind`. -/
inductive ItemKind where
  | speedup | slowdown | fastTurning | slowTurning | expand | shrink
  | ghost | noGap | wallTeleporting | clear
deriving DecidableEq

/-- Constant `ITEM_KINDS = ItemKind::members()` in declaration order. -/
def ITEM_KINDS : List ItemKind :=
  [.speedup, .slowdown, .fastTurning, .slowTurning, .expand, .shrink,
   .ghost, .noGap, .wallTeleporting, .clear]

/-- Method `ItemKind::spawn_rate`. -/
def ItemKind.spawn_rate : ItemKind → ℕ
  | .speedup => 4
  | .slowdown => 4
  | .fastTurning => 4
  | .slowTurning => 4
  | .expand => 4
  | .shrink => 4
  | .ghost => 1
  | .noGap => 3
  | .wallTeleporting => 4
  | .clear => 2

/-- Constant `SUM_OF_ITEM_SPAWN_RATES`. -/
def SUM_OF_ITEM_SPAWN_RATES : ℕ := (ITEM_KINDS.map ItemKind.spawn_rate).sum

/-- Struct `Item`. -/
structure Item where
  pos : Pos2
  kind : ItemKind

/-- Struct `Effect<T>`; `start` and `duration` are seconds. -/
structure Effect (T : Type) where
  start : ℝ
  duration : ℝ
  kind : T

/-- Enum `PlayerEffect`. -/
inductive PlayerEffect where
  | size (s : ℝ)
  | speed (s : ℝ)
  | turning (r : ℝ)
  | ghost
  | noGap
  | gap

/-- The `PartialEq` test `kind == PlayerEffect::Gap` (payload-free variant). -/
def PlayerEffect.isGap : PlayerEffect → Bool
  | .gap => true
  | _ => false

/-- The `PartialEq` test `kind == PlayerEffect::Ghost`. -/
def PlayerEffect.isGhost : PlayerEffect → Bool
  | .ghost => true
  | _ => false

/-- The `PartialEq` test `kind == PlayerEffect::NoGap`. -/
def PlayerEffect.isNoGap : PlayerEffect → Bool
  | .noGap => true
  | _ => false

/-- Enum `WorldEffect`. -/
inductive WorldEffect where
  | wallTeleporting
deriving DecidableEq

/-- Struct `Crash` together with enum `CrashMessage` (the `Color32` fields
are replaced by the player's `PlayerColor`, an injective image of
`color32`). -/
inductive CrashMessage where
  | own (name : String) (color : PlayerColor)
  | wall (name : String) (color : PlayerColor)
  | other (crashed_name : String) (crashed_color : PlayerColor)
      (other_name : String) (other_color : PlayerColor)

structure Crash where
  time : ℝ
  message : CrashMessage

/-- Struct `Player` (`Key` bindings are opaque numbers). -/
structure Player where
  id : ℕ
  name : String
  trail : List TrailSection
  pos : Pos2
  angle : ℝ
  color : PlayerColor
  effects : List (Effect PlayerEffect)
  left_key : ℕ
  right_key : ℕ
  local_direction : Direction
  remote_direction : Direction
  just_crashed : Bool
  crashed : Bool
  score : ℕ

/-- Method `Player::gap`. -/
def Player.gap (p : Player) : Bool :=
  p.effects.any fun e => e.kind.isGap || e.kind.isGhost

/-- Method `Player::no_gap`. -/
def Player.no_gap (p : Player) : Bool :=
  p.effects.any fun e => e.kind.isNoGap

/-- Method `Player::direction`. -/
def Player.direction (p : Player) : Direction :=
  match p.local_direction with
  | .straight => p.remote_direction
  | d => d

/-- Method `Player::speed`. -/
def Player.speed (p : Player) : ℝ :=
  let s := BASE_SPEED + (p.effects.filterMap fun e =>
    match e.kind with
    | .speed s => some s
    | _ => none).sum
  max s MIN_SPEED

/-- Method `Player::thickness`. -/
def Player.thickness (p : Player) : ℝ :=
  let t := BASE_THICKNESS + (p.effects.filterMap fun e =>
    match e.kind with
    | .size s => some s
    | _ => none).sum
  max t MIN_THICKNESS

/-- Method `Player::turning_radius`. -/
def Player.turning_radius (p : Player) : ℝ :=
  let r := BASE_TURNING_RADIUS + (p.effects.filterMap fun e =>
    match e.kind with
    | .turning r => some r
    | _ => none).sum
  max r MIN_TURNING_RADIUS

/-- The whole-trail `intersects_own_trail` loop. -/
def intersects_own_trail (p : Player) : Bool :=
  p.trail.any fun s => ownTrailStep p.pos p.thickness s

/-- Enum `GameState`; the payload is the state's `SystemTime` in seconds. -/
inductive GameState where
  | starting (t : ℝ)
  | running (t : ℝ)
  | paused (t : ℝ)
  | stopped (t : ℝ)

/-- Struct `Clock`: `SystemTime`s and `Duration`s in seconds. -/
structure Clock where
  last_frame : ℝ
  now : ℝ
  frame_delta : ℝ

/-- Method `Clock::update`.  `realNow` stands for the `SystemTime::now()`
sample taken at the head of the method. -/
def Clock.update (c : Clock) (realNow : ℝ) (state : GameState) : Clock :=
  match state with
  | .paused _ | .stopped _ =>
    { c with frame_delta := 0, last_frame := realNow }
  | .starting _ | .running _ =>
    { c with frame_delta := UPDATE_TIME, now := c.now + UPDATE_TIME,
             last_frame := realNow }

/-- The older revision's `Clock::update` (src/src/world.rs): a `paused` flag
and a wall-clock-measured `frame_delta = now.duration_since(last_frame)`. -/
def Clock.update_measured (c : Clock) (realNow : ℝ) (paused : Bool) : Clock :=
  if paused then { c with frame_delta := 0, last_frame := realNow }
  else { c with frame_delta := realNow - c.last_frame,
                now := c.now + (realNow - c.last_frame),
                last_frame := realNow }

/-- The RNG oracle: the sequence of samples `rand::thread_rng` would produce.
`reals` feeds the `gen_range` calls on `f32` ranges (each entry is the drawn
value itself), `nats` the integer ranges (taken modulo the range size). -/
structure Rng where
  reals : List ℝ
  nats : List ℕ

/-- Draw the next `f32` sample. -/
def Rng.nextReal (r : Rng) : ℝ × Rng :=
  (r.reals.headD 0, { r with reals := r.reals.tail })

/-- Draw the next integer sample from `gen_range(0..bound)`. -/
def Rng.nextNat (r : Rng) (bound : ℕ) : ℕ × Rng :=
  (r.nats.headD 0 % bound, { r with nats := r.nats.tail })

/-- Free function `gap_effect`. -/
def gap_effect (clock : Clock) (j : ℕ) : Effect PlayerEffect :=
  { start := clock.now,
    duration := GAP_EFFECT_DURATION + j * GAP_EFFECT_DEVIATION_DURATION,
    kind := .gap }

/-- Free function `player_effect`. -/
def player_effect (clock : Clock) (j : ℕ) (kind : PlayerEffect) :
    Effect PlayerEffect :=
  { start := clock.now,
    duration := PLAYER_EFFECT_DURATION + j * PLAYER_EFFECT_DEVIATION_DURATION,
    kind := kind }

/-- Free function `world_effect`. -/
def world_effect (clock : Clock) (j : ℕ) (kind : WorldEffect) :
    Effect WorldEffect :=
  { start := clock.now,
    duration := WORLD_EFFECT_DURATION + j * WORLD_EFFECT_DEVIATION_DURATION,
    kind := kind }

/-- Free function `add_trail_section`. -/
def add_trail_section (p : Player) : Player :=
  match p.direction.turning_direction with
  | none =>
    let sec : StraightTrailSection :=
      { start := p.pos, gap := p.gap, thickness := p.thickness, «end» := p.pos }
    { p with pos := sec.«end», trail := p.trail ++ [.straight sec] }
  | some dir =>
    let sec : ArcTrailSection :=
      { start_pos := p.pos, gap := p.gap, thickness := p.thickness, dir := dir,
        radius := p.turning_radius, player_start_angle := p.angle,
        player_end_angle := p.angle }
    { p with pos := sec.end_pos, trail := p.trail ++ [.arc sec] }

/-- Free function `update_trail_section`; `none` is the
`expect("There should be at least on trail section")` panic. -/
def update_trail_section (clock : Clock) (p : Player) : Option Player :=
  let delta_time := clock.frame_delta
  let speed := p.speed
  match p.trail.getLast? with
  | none => none
  | some (.straight s) =>
    let s' := { s with
      «end» := ⟨s.«end».x + delta_time * speed * Real.cos p.angle,
                s.«end».y + delta_time * speed * Real.sin p.angle⟩ }
    some { p with trail := p.trail.dropLast ++ [.straight s'], pos := s'.«end» }
  | some (.arc s) =>
    let s' := { s with
      player_end_angle :=
        s.player_end_angle + delta_time * speed / s.radius * s.dir.angle_sign }
    some { p with trail := p.trail.dropLast ++ [.arc s'], pos := s'.end_pos,
                  angle := s'.player_end_angle }

/-- Free function `move_player`; `none` is a panic of either `expect`. -/
def move_player (clock : Clock) (p : Player) : Option Player :=
  if p.trail.isEmpty then some (add_trail_section p)
  else
    match p.trail.getLast? with
    | none => none
    | some last_trail =>
      let p :=
        if p.direction ≠ last_trail.dir ∨ p.gap ≠ last_trail.gap ∨
            p.thickness ≠ last_trail.thickness then
          add_trail_section p
        else
          match last_trail with
          | .arc s => if p.turning_radius ≠ s.radius then add_trail_section p else p
          | .straight _ => p
      update_trail_section clock p

/-- Struct `World` (the screen-drawing fields are not part of the engine). -/
structure World where
  next_id : ℕ
  is_running : Bool
  clock : Clock
  state : GameState
  items : List Item
  effects : List (Effect WorldEffect)
  players : List Player
  crash_feed : List Crash

/-- Method `World::wall_teleporting`. -/
def World.wall_teleporting (w : World) : Bool :=
  w.effects.any fun e => e.kind = WorldEffect.wallTeleporting

/-- Method `Player::reset`. -/
def Player.reset (p : Player) (pos : Pos2) (rng : Rng) : Player × Rng :=
  let (a, rng) := rng.nextReal
  ({ p with
      pos := pos, angle := a, effects := [], trail := [],
      local_direction := .straight, remote_direction := .straight,
      just_crashed := false, crashed := false }, rng)

/-- The bounded rejection loop of `gen_player_position` (1_000_000 rounds in
the source; the fuel is explicit). -/
def gen_player_position_loop (others : List Player) :
    ℕ → Pos2 → Rng → Pos2 × Rng
  | 0, pos, rng => (pos, rng)
  | fuel + 1, _, rng =>
    let (x, rng) := rng.nextReal
    let (y, rng) := rng.nextReal
    let pos : Pos2 := ⟨x, y⟩
    if others.any fun o => intersects pos o.pos MIN_PLAYER_DIST then
      gen_player_position_loop others fuel pos rng
    else (pos, rng)

/-- Free function `gen_player_position`. -/
def gen_player_position (others : List Player) (rng : Rng) : Pos2 × Rng :=
  gen_player_position_loop others 1000000 ⟨0, 0⟩ rng

/-- The bounded rejection loop of `gen_item_position` (10_000 rounds). -/
def gen_item_position_loop (players : List Player) (items : List Item) :
    ℕ → Rng → Option Pos2 × Rng
  | 0, rng => (none, rng)
  | fuel + 1, rng =>
    let (x, rng) := rng.nextReal
    let (y, rng) := rng.nextReal
    let pos : Pos2 := ⟨x, y⟩
    if (players.any fun p => intersects_trail pos MIN_ITEM_DIST p.trail) ∨
        (items.any fun i => intersects pos i.pos MIN_ITEM_DIST) then
      gen_item_position_loop players items fuel rng
    else (some pos, rng)

/-- Free function `gen_item_position`. -/
def gen_item_position (players : List Player) (items : List Item) (rng : Rng) :
    Option Pos2 × Rng :=
  gen_item_position_loop players items 10000 rng

/-- The cumulative-weight scan choosing an `ItemKind` from
`item_kind_idx` (the `for k in ITEM_KINDS` loop of `World::update`). -/
def chooseItemKindLoop (item_kind_idx : ℕ) : List ItemKind → ℕ → Option ItemKind
  | [], _ => none
  | k :: rest, idx =>
    let idx := idx + k.spawn_rate
    if item_kind_idx < idx then some k else chooseItemKindLoop item_kind_idx rest idx

def chooseItemKind (item_kind_idx : ℕ) : Option ItemKind :=
  chooseItemKindLoop item_kind_idx ITEM_KINDS 0

/-- The item-spawning block of `World::update` (`// spawn items`); `none` is
the `expect("item kind should match one item")` panic. -/
def spawnItems (clock : Clock) (players : List Player) (items : List Item)
    (rng : Rng) : Option (List Item × Rng) :=
  if items.length < MAX_ITEMS then
    let weighted_rate := clock.frame_delta * ITEM_SPAWN_RATE
    let (roll, rng) := rng.nextReal
    if roll < weighted_rate then
      let (item_kind_idx, rng) := rng.nextNat SUM_OF_ITEM_SPAWN_RATES
      let item_kind := chooseItemKind item_kind_idx
      match gen_item_position players items rng with
      | (some pos, rng) =>
        match item_kind with
        | some kind => some (items ++ [{ pos := pos, kind := kind }], rng)
        | none => none
      | (none, rng) => some (items, rng)
    else some (items, rng)
  else some (items, rng)

/-- The per-player effect-expiry / random-gap / movement block of
`World::update` (`// remove effects` over players). -/
def movementStep (clock : Clock) (p : Player) (rng : Rng) :
    Option (Player × Rng) :=
  let p := { p with effects := p.effects.filter fun e => e.start + e.duration > clock.now }
  if p.crashed then some (p, rng)
  else
    let weighted_range := clock.frame_delta * GAP_RATE
    let (p, rng) :=
      if ¬p.gap ∧ ¬p.no_gap then
        let (roll, rng) := rng.nextReal
        if roll < weighted_range then
          let (j, rng) := rng.nextNat 2
          ({ p with effects := p.effects ++ [gap_effect clock j] }, rng)
        else (p, rng)
      else (p, rng)
    match move_player clock p with
    | none => none
    | some p => some (p, rng)

def movementPhase (clock : Clock) : List Player → Rng → Option (List Player × Rng)
  | [], rng => some ([], rng)
  | p :: ps, rng =>
    match movementStep clock p rng with
    | none => none
    | some (p, rng) =>
      match movementPhase clock ps rng with
      | none => none
      | some (ps, rng) => some (p :: ps, rng)

/-- The `// collect items` while-loop of `World::update`: scan the item list
left to right, pick up every item within reach (removing it), keep the rest;
`clear` is the `clear_trails` flag. -/
def collectItems (clock : Clock) : Player → List Item →
    List (Effect WorldEffect) → Rng → Bool →
    Player × List Item × List (Effect WorldEffect) × Rng × Bool
  | p, [], weffects, rng, clear => (p, [], weffects, rng, clear)
  | p, item :: rest, weffects, rng, clear =>
    let dist := 0.5 * p.thickness + ITEM_RADIUS
    if intersects p.pos item.pos dist then
      match item.kind with
      | .speedup =>
        let (j, rng) := rng.nextNat 2
        collectItems clock
          { p with effects := p.effects ++ [player_effect clock j (.speed 50)] }
          rest weffects rng clear
      | .slowdown =>
        let (j, rng) := rng.nextNat 2
        collectItems clock
          { p with effects := p.effects ++ [player_effect clock j (.speed (-50))] }
          rest weffects rng clear
      | .fastTurning =>
        let (j, rng) := rng.nextNat 2
        collectItems clock
          { p with effects := p.effects ++ [player_effect clock j (.turning (-20))] }
          rest weffects rng clear
      | .slowTurning =>
        let (j, rng) := rng.nextNat 2
        collectItems clock
          { p with effects := p.effects ++ [player_effect clock j (.turning 20)] }
          rest weffects rng clear
      | .expand =>
        let (j, rng) := rng.nextNat 2
        collectItems clock
          { p with effects := p.effects ++ [player_effect clock j (.size 4)] }
          rest weffects rng clear
      | .shrink =>
        let (j, rng) := rng.nextNat 2
        collectItems clock
          { p with effects := p.effects ++ [player_effect clock j (.size (-2))] }
          rest weffects rng clear
      | .ghost =>
        let p := { p with effects := p.effects.filter fun e => ¬e.kind.isNoGap }
        let (j, rng) := rng.nextNat 2
        collectItems clock
          { p with effects := p.effects ++ [player_effect clock j .ghost] }
          rest weffects rng clear
      | .noGap =>
        let p := { p with effects := p.effects.filter fun e => ¬e.kind.isGap }
        let (j, rng) := rng.nextNat 2
        collectItems clock
          { p with effects := p.effects ++ [player_effect clock j .noGap] }
          rest weffects rng clear
      | .wallTeleporting =>
        let (j, rng) := rng.nextNat 2
        collectItems clock p rest
          (weffects ++ [world_effect clock j .wallTeleporting]) rng clear
      | .clear => collectItems clock p rest weffects rng true
    else
      let (p', rest', weffects', rng', clear') :=
        collectItems clock p rest weffects rng clear
      (p', item :: rest', weffects', rng', clear')

/-- The state the `for pi in 0..self.players.len()` crash/item loop threads. -/
structure RunState where
  players : List Player
  items : List Item
  effects : List (Effect WorldEffect)
  crash_feed : List Crash
  rng : Rng

/-- The wall collision / teleport step of one loop iteration of
`World::update` (`// check for crash`). -/
def wallCheck (clock : Clock) (wall_teleporting : Bool) (feed : List Crash)
    (p0 : Player) : Player × List Crash :=
  if wall_teleporting then
    let p := p0
    let p :=
      if p.pos.x < 0 then add_trail_section { p with pos := ⟨WORLD_SIZE.x, p.pos.y⟩ }
      else if p.pos.x > WORLD_SIZE.x then add_trail_section { p with pos := ⟨0, p.pos.y⟩ }
      else p
    let p :=
      if p.pos.y < 0 then add_trail_section { p with pos := ⟨p.pos.x, WORLD_SIZE.y⟩ }
      else if p.pos.y > WORLD_SIZE.y then add_trail_section { p with pos := ⟨p.pos.x, 0⟩ }
      else p
    (p, feed)
  else
    let thickness := p0.thickness
    if p0.pos.x < 0.5 * thickness ∨ p0.pos.x > WORLD_SIZE.x - 0.5 * thickness ∨
        p0.pos.y < 0.5 * thickness ∨ p0.pos.y > WORLD_SIZE.y - 0.5 * thickness then
      ({ p0 with just_crashed := true },
       feed ++ [⟨clock.now, .wall p0.name p0.color⟩])
    else (p0, feed)

/-- The wall / self / cross crash checks of one loop iteration of
`World::update` for the player `p0` at index `pi`. -/
def checkCrashes (clock : Clock) (wall_teleporting : Bool) (st : RunState)
    (pi : ℕ) (p0 : Player) : Player × List Crash :=
  let (p1, feed1) := wallCheck clock wall_teleporting st.crash_feed p0
  if ¬p1.gap then
    let (pa, fa) :=
      if intersects_own_trail p1 then
        ({ p1 with just_crashed := true },
         feed1 ++ [⟨clock.now, .own p1.name p1.color⟩])
      else (p1, feed1)
    let others := st.players.enum.filter fun io => io.1 ≠ pi
    match others.find? fun io =>
        intersects_trail pa.pos (0.5 * pa.thickness) io.2.trail with
    | some io =>
      ({ pa with just_crashed := true },
       fa ++ [⟨clock.now, .other pa.name pa.color io.2.name io.2.color⟩])
    | none => (pa, fa)
  else (p1, feed1)

/-- One iteration of the crash-check / item-pickup loop of `World::update`
for player index `pi`. -/
def processPlayer (clock : Clock) (wall_teleporting : Bool) (st : RunState)
    (pi : ℕ) : RunState :=
  match st.players.get? pi with
  | none => st
  | some p0 =>
    if p0.crashed then st
    else
      let (p2, feed2) := checkCrashes clock wall_teleporting st pi p0
      let players2 := st.players.set pi p2
      let (p3, items', weffects', rng', clear) :=
        collectItems clock p2 st.items st.effects st.rng false
      let players3 := players2.set pi p3
      let players4 :=
        if clear then players3.map fun q => { q with trail := [] } else players3
      { players := players4, items := items', effects := weffects',
        crash_feed := feed2, rng := rng' }

/-- The `just_crashed -> crashed` commit of one player (the first loop of
the `num_alive_players` block of `World::update`). -/
def commitPlayer (p : Player) : Player :=
  if p.just_crashed then { p with crashed := true } else p

/-- The `+1` survivor scoring of one player (the second loop of the
`num_alive_players` block). -/
def scorePlayer (p : Player) : Player :=
  if ¬p.crashed then { p with score := p.score + 1 } else p

/-- The commit / scoring / termination tail of the `Running` branch of
`World::update` (the `num_alive_players` block). -/
def commitAndScore (start_time : ℝ) (players : List Player) :
    List Player × GameState :=
  let players := players.map commitPlayer
  let num_alive := (players.filter fun p => ¬p.just_crashed).length
  if num_alive < 2 then
    (players.map scorePlayer, GameState.stopped start_time)
  else (players, GameState.running start_time)

/-- Method `World::update`; `realNow` is the `SystemTime::now()` sample the
clock takes, `rng` the RNG oracle, and `none` a panic. -/
def World.update (rng : Rng) (realNow : ℝ) (w : World) : Option World :=
  let clock := w.clock.update realNow w.state
  match w.state with
  | .starting start_time =>
    let players := w.players.map fun p =>
      match p.direction.turning_direction with
      | none => p
      | some dir =>
        { p with angle := p.angle +
            clock.frame_delta * BASE_SPEED / BASE_TURNING_RADIUS * dir.angle_sign }
    let state :=
      if clock.now > start_time + START_DELAY then GameState.running clock.now
      else w.state
    some { w with clock := clock, players := players, state := state }
  | .running start_time =>
    let weffects := w.effects.filter fun e => e.start + e.duration > clock.now
    match spawnItems clock w.players w.items rng with
    | none => none
    | some (items, rng) =>
      match movementPhase clock w.players rng with
      | none => none
      | some (players, rng) =>
        let wall_teleporting := weffects.any fun e => e.kind = WorldEffect.wallTeleporting
        let st : RunState :=
          ⟨players, items, weffects, w.crash_feed, rng⟩
        let st := (List.range players.length).foldl
          (processPlayer clock wall_teleporting) st
        let (players, state) := commitAndScore start_time st.players
        some { w with
                clock := clock, state := state, items := st.items,
                effects := st.effects, players := players,
                crash_feed := st.crash_feed }
  | .paused _ => some { w with clock := clock }
  | .stopped _ => some { w with clock := clock }

/-- The player-reset loop of `World::restart`: player `i` is placed against
the already-reset players `0..i`. -/
def resetLoop (rng : Rng) (done : List Player) :
    List Player → List Player × Rng
  | [] => (done, rng)
  | p :: rest =>
    let (pos, rng') := gen_player_position done rng
    let (p', rng'') := p.reset pos rng'
    resetLoop rng'' (done ++ [p']) rest

/-- Method `World::restart`. -/
def World.restart (rng : Rng) (w : World) : World × Rng :=
  match w.state with
  | .stopped _ =>
    let (players, rng) := resetLoop rng [] w.players
    ({ w with
        state := .starting w.clock.now, items := [], effects := [],
        crash_feed := [], players := players }, rng)
  | _ => (w, rng)

/-- Method `World::remove_player`; `none` is the panic of the out-of-range
`Vec::remove`. -/
def World.remove_player (w : World) (idx : ℕ) : Option World :=
  if w.players.length > 2 then
    if idx < w.players.length then
      some { w with players := w.players.eraseIdx idx }
    else none
  else some w

/-! Evaluation lemmas for the real-valued primitives. -/

lemma remEuclid_of_nonneg_of_lt {a b : ℝ} (h0 : 0 ≤ a) (h1 : a < b) :
    remEuclid a b = a := by
  have hb : 0 < b := lt_of_le_of_lt h0 h1
  have hfl : ⌊a / b⌋ = 0 := by
    rw [Int.floor_eq_zero_iff]
    constructor
    · exact div_nonneg h0 hb.le
    · rw [div_lt_one hb]; exact h1
  simp [remEuclid, hfl]

lemma remEuclid_of_neg {a b : ℝ} (hb : 0 < b) (h0 : -b ≤ a) (h1 : a < 0) :
    remEuclid a b = a + b := by
  have hfl : ⌊a / b⌋ = -1 := by
    rw [Int.floor_eq_iff]
    constructor
    · push_cast
      rw [neg_le, ← neg_div]
      exact (div_le_one hb).mpr (by linarith)
    · push_cast
      calc a / b < 0 := div_neg_of_neg_of_pos h1 hb
        _ ≤ -1 + 1 := by norm_num
  simp only [remEuclid, hfl]
  push_cast
  ring

lemma atan2_pos_x (y : ℝ) {x : ℝ} (hx : 0 < x) :
    atan2 y x = Real.arctan (y / x) := by
  simp [atan2, hx]

lemma atan2_zero_zero : atan2 0 0 = 0 := by
  simp [atan2]

lemma atan2_neg_x_neg_y {y x : ℝ} (hx : x < 0) (hy : y < 0) :
    atan2 y x = Real.arctan (y / x) - Real.pi := by
  simp [atan2, not_lt_of_gt hx, hx, not_le_of_lt hy]

lemma arctan_pos_of_pos {x : ℝ} (hx : 0 < x) : 0 < Real.arctan x := by
  have := Real.arctan_strictMono hx
  rwa [Real.arctan_zero] at this

lemma arctan_neg_of_neg {x : ℝ} (hx : x < 0) : Real.arctan x < 0 := by
  have := Real.arctan_strictMono hx
  rwa [Real.arctan_zero] at this

lemma distance_lt_iff {a b : Pos2} {c : ℝ} (hc : 0 < c) :
    (Pos2.distance a b < c) ↔ (b.x - a.x) ^ 2 + (b.y - a.y) ^ 2 < c ^ 2 :=
  Real.sqrt_lt' hc

lemma lt_distance_iff {a b : Pos2} {c : ℝ} (hc : 0 ≤ c) :
    (c < Pos2.distance a b) ↔ c ^ 2 < (b.x - a.x) ^ 2 + (b.y - a.y) ^ 2 :=
  Real.lt_sqrt hc

lemma distance_lt_distance_iff {a b c d : Pos2} :
    (Pos2.distance a b < Pos2.distance c d) ↔
      (b.x - a.x) ^ 2 + (b.y - a.y) ^ 2 < (d.x - c.x) ^ 2 + (d.y - c.y) ^ 2 :=
  Real.sqrt_lt_sqrt_iff (by positivity)

lemma distance_le_distance_iff {a b c d : Pos2} :
    (Pos2.distance a b ≤ Pos2.distance c d) ↔
      (b.x - a.x) ^ 2 + (b.y - a.y) ^ 2 ≤ (d.x - c.x) ^ 2 + (d.y - c.y) ^ 2 :=
  Real.sqrt_le_sqrt_iff (by positivity)

lemma le_distance_iff {a b : Pos2} {c : ℝ} (hc : 0 ≤ c) :
    (c ≤ Pos2.distance a b) ↔ c ^ 2 ≤ (b.x - a.x) ^ 2 + (b.y - a.y) ^ 2 :=
  Real.le_sqrt hc (by positivity)

lemma distance_le_iff {a b : Pos2} {c : ℝ} (hc : 0 ≤ c) :
    (Pos2.distance a b ≤ c) ↔ (b.x - a.x) ^ 2 + (b.y - a.y) ^ 2 ≤ c ^ 2 :=
  Real.sqrt_le_left hc

lemma distance_self (a : Pos2) : Pos2.distance a a = 0 := by
  simp [Pos2.distance]

lemma distance_nonneg (a b : Pos2) : 0 ≤ Pos2.distance a b :=
  Real.sqrt_nonneg _

/-! Evaluations of the thick straight-segment test on the reference section
from `(0,0)` to `(100,0)` with thickness `10`. -/

/-- The reference straight section of the capsule-symmetry property. -/
def refSection : StraightTrailSection := ⟨⟨0, 0⟩, false, 10, ⟨100, 0⟩⟩

lemma eval_straight_inside :
    intersects_straight_trailsection refSection ⟨50, 49/10⟩ 0 = true := by
  have hpi := Real.pi_pos
  have hang : angle (⟨0, 0⟩ : Pos2) ⟨100, 0⟩ = 0 := by
    simp only [angle]
    norm_num
    rw [atan2_pos_x 0 (by norm_num : (0:ℝ) < 100)]
    norm_num [Real.arctan_zero]
  simp only [refSection, intersects_straight_trailsection]
  simp only [hang]
  simp only [remEuclid_of_nonneg_of_lt le_rfl (by linarith : (0:ℝ) < 2 * Real.pi)]
  simp only [show (0:ℝ) + Real.pi = Real.pi by ring]
  simp only [remEuclid_of_nonneg_of_lt hpi.le (by linarith : Real.pi < 2 * Real.pi)]
  simp only [show (0:ℝ) - Real.pi/2 = -(Real.pi/2) by ring]
  simp only [Real.cos_neg, Real.sin_neg, Real.cos_pi_div_two, Real.sin_pi_div_two]
  norm_num
  have hA1 : angle (⟨0, -5⟩ : Pos2) ⟨50, 49/10⟩ = Real.arctan (99/500) := by
    simp only [angle]
    rw [show (49/10 - (-5) : ℝ) = 99/10 by norm_num, show (50 - 0 : ℝ) = 50 by norm_num]
    rw [atan2_pos_x _ (by norm_num : (0:ℝ) < 50)]
    norm_num
  have hA2 : angle (⟨0, 5⟩ : Pos2) ⟨50, 49/10⟩ = Real.arctan (-(1/500)) := by
    simp only [angle]
    rw [show (49/10 - 5 : ℝ) = -(1/10) by norm_num, show (50 - 0 : ℝ) = 50 by norm_num]
    rw [atan2_pos_x _ (by norm_num : (0:ℝ) < 50)]
    norm_num
  have hb1 : 0 < Real.arctan (99/500) := arctan_pos_of_pos (by norm_num)
  have hb2 : Real.arctan (99/500) < Real.pi/2 := Real.arctan_lt_pi_div_two _
  have hb3 : Real.arctan (-(1/500)) < 0 := arctan_neg_of_neg (by norm_num)
  have hb4 : -(Real.pi/2) < Real.arctan (-(1/500)) := Real.neg_pi_div_two_lt_arctan _
  rw [hA1, hA2]
  rw [remEuclid_of_nonneg_of_lt hb1.le (by linarith)]
  rw [remEuclid_of_neg (by linarith) (by linarith) hb3]
  refine Or.inr ⟨⟨?_, ?_⟩, ?_⟩
  · rw [distance_le_distance_iff]
    norm_num
  · rw [distance_le_distance_iff]
    norm_num
  · rw [if_pos hpi]
    rw [decide_eq_true hb1, decide_eq_true (show Real.arctan (99/500) < Real.pi by linarith)]
    rw [decide_eq_true (show 0 < Real.arctan (-(1/500)) + 2*Real.pi by linarith)]
    rw [decide_eq_false (show ¬(Real.arctan (-(1/500)) + 2*Real.pi < Real.pi) by push_neg; linarith)]
    simp

lemma eval_straight_outside :
    intersects_straight_trailsection refSection ⟨50, 51/10⟩ 0 = false := by
  have hpi := Real.pi_pos
  have hang : angle (⟨0, 0⟩ : Pos2) ⟨100, 0⟩ = 0 := by
    simp only [angle]
    norm_num
    rw [atan2_pos_x 0 (by norm_num : (0:ℝ) < 100)]
    norm_num [Real.arctan_zero]
  simp only [refSection, intersects_straight_trailsection]
  simp only [hang]
  simp only [remEuclid_of_nonneg_of_lt le_rfl (by linarith : (0:ℝ) < 2 * Real.pi)]
  simp only [show (0:ℝ) + Real.pi = Real.pi by ring]
  simp only [remEuclid_of_nonneg_of_lt hpi.le (by linarith : Real.pi < 2 * Real.pi)]
  simp only [show (0:ℝ) - Real.pi/2 = -(Real.pi/2) by ring]
  simp only [Real.cos_neg, Real.sin_neg, Real.cos_pi_div_two, Real.sin_pi_div_two]
  norm_num
  have hA1 : angle (⟨0, -5⟩ : Pos2) ⟨50, 51/10⟩ = Real.arctan (101/500) := by
    simp only [angle]
    rw [show (51/10 - (-5) : ℝ) = 101/10 by norm_num, show (50 - 0 : ℝ) = 50 by norm_num]
    rw [atan2_pos_x _ (by norm_num : (0:ℝ) < 50)]
    norm_num
  have hA2 : angle (⟨0, 5⟩ : Pos2) ⟨50, 51/10⟩ = Real.arctan (1/500) := by
    simp only [angle]
    rw [show (51/10 - 5 : ℝ) = 1/10 by norm_num, show (50 - 0 : ℝ) = 50 by norm_num]
    rw [atan2_pos_x _ (by norm_num : (0:ℝ) < 50)]
    norm_num
  have hb1 : 0 < Real.arctan (101/500) := arctan_pos_of_pos (by norm_num)
  have hb2 : Real.arctan (101/500) < Real.pi/2 := Real.arctan_lt_pi_div_two _
  have hb3 : 0 < Real.arctan (1/500) := arctan_pos_of_pos (by norm_num)
  have hb4 : Real.arctan (1/500) < Real.pi/2 := Real.arctan_lt_pi_div_two _
  rw [hA1, hA2]
  rw [remEuclid_of_nonneg_of_lt hb1.le (by linarith)]
  rw [remEuclid_of_nonneg_of_lt hb3.le (by linarith)]
  refine ⟨⟨?_, ?_⟩, fun _ _ => ?_⟩
  · rw [le_distance_iff (by norm_num)]
    norm_num
  · rw [le_distance_iff (by norm_num)]
    norm_num
  · rw [if_pos hpi]
    rw [decide_eq_true hb1, decide_eq_true (show Real.arctan (101/500) < Real.pi by linarith)]
    rw [decide_eq_true hb3, decide_eq_true (show Real.arctan (1/500) < Real.pi by linarith)]

lemma eval_straight_boundary :
    intersects_straight_trailsection refSection ⟨50, 5⟩ 0 = true := by
  have hpi := Real.pi_pos
  have hang : angle (⟨0, 0⟩ : Pos2) ⟨100, 0⟩ = 0 := by
    simp only [angle]
    norm_num
    rw [atan2_pos_x 0 (by norm_num : (0:ℝ) < 100)]
    norm_num [Real.arctan_zero]
  simp only [refSection, intersects_straight_trailsection]
  simp only [hang]
  simp only [remEuclid_of_nonneg_of_lt le_rfl (by linarith : (0:ℝ) < 2 * Real.pi)]
  simp only [show (0:ℝ) + Real.pi = Real.pi by ring]
  simp only [remEuclid_of_nonneg_of_lt hpi.le (by linarith : Real.pi < 2 * Real.pi)]
  simp only [show (0:ℝ) - Real.pi/2 = -(Real.pi/2) by ring]
  simp only [Real.cos_neg, Real.sin_neg, Real.cos_pi_div_two, Real.sin_pi_div_two]
  norm_num
  have hA1 : angle (⟨0, -5⟩ : Pos2) ⟨50, 5⟩ = Real.arctan (1/5) := by
    simp only [angle]
    rw [show (5 - (-5) : ℝ) = 10 by norm_num, show (50 - 0 : ℝ) = 50 by norm_num]
    rw [atan2_pos_x _ (by norm_num : (0:ℝ) < 50)]
    norm_num
  have hA2 : angle (⟨0, 5⟩ : Pos2) ⟨50, 5⟩ = 0 := by
    simp only [angle]
    rw [show (5 - 5 : ℝ) = 0 by norm_num, show (50 - 0 : ℝ) = 50 by norm_num]
    rw [atan2_pos_x _ (by norm_num : (0:ℝ) < 50)]
    norm_num [Real.arctan_zero]
  have hb1 : 0 < Real.arctan (1/5) := arctan_pos_of_pos (by norm_num)
  have hb2 : Real.arctan (1/5) < Real.pi/2 := Real.arctan_lt_pi_div_two _
  rw [hA1, hA2]
  rw [remEuclid_of_nonneg_of_lt hb1.le (by linarith)]
  rw [remEuclid_of_nonneg_of_lt le_rfl (by linarith)]
  refine Or.inr ⟨⟨?_, ?_⟩, ?_⟩
  · rw [distance_le_distance_iff]
    norm_num
  · rw [distance_le_distance_iff]
    norm_num
  · rw [if_pos hpi]
    rw [decide_eq_true hb1, decide_eq_true (show Real.arctan (1/5) < Real.pi by linarith)]
    rw [decide_eq_false (show ¬(0:ℝ) < 0 by norm_num)]
    simp

/-- C2 (counterexample): the claim states that the boundary probe at
`(50, 5)` — exactly on the capsule's lateral boundary at
`half_width = 5` — counts as not intersecting; on the code it does
intersect: both strict angular corridor comparisons classify the rail
itself as a crossing, so the test returns `true` there. -/
theorem straight_boundary_probe_hits :
    intersects_straight_trailsection refSection ⟨50, 5⟩ 0 = true :=
  eval_straight_boundary

/-- C2 (amended): for the straight section from `(0,0)` to `(100,0)` with
thickness `10`, the probe at `(50, 4.9)` with radius `0` intersects and the
probe at `(50, 5.1)` does not; the endpoint distance comparisons are strict
(`<`, not `<=`), but a probe exactly on the lateral boundary at
`half_width = 5` registers as intersecting. -/
theorem straight_section_probe_semantics :
    intersects_straight_trailsection refSection ⟨50, 49/10⟩ 0 = true ∧
    intersects_straight_trailsection refSection ⟨50, 51/10⟩ 0 = false ∧
    intersects_straight_trailsection refSection ⟨50, 5⟩ 0 = true :=
  ⟨eval_straight_inside, eval_straight_outside, eval_straight_boundary⟩

/-- The radial band membership condition of the thick arc test, as the spec
words it: the probe's distance from the arc center lies within
`[radius - half_width - probe, radius + half_width + probe]`. -/
def radialBand (s : ArcTrailSection) (pos : Pos2) (dist : ℝ) : Prop :=
  s.radius - 0.5 * s.thickness - dist ≤ s.center_pos.distance pos ∧
    s.center_pos.distance pos ≤ s.radius + 0.5 * s.thickness + dist

/-- The angular membership condition of the thick arc test, as the spec
words it: normalize the arc's start/end angle into `[0, 2π)` (swapped when
turning left), compute the probe's angle from the center, and test whether
it falls strictly between start and end, with wraparound when
`start > end`. -/
def arcAngularBetween (s : ArcTrailSection) (pos : Pos2) : Prop :=
  let arc_start_angle :=
    if s.dir = TurnDirection.rightTurn then remEuclid s.arc_start_angle (2 * Real.pi)
    else remEuclid s.arc_end_angle (2 * Real.pi)
  let arc_end_angle :=
    if s.dir = TurnDirection.rightTurn then remEuclid s.arc_end_angle (2 * Real.pi)
    else remEuclid s.arc_start_angle (2 * Real.pi)
  let arc_angle := remEuclid (angle s.center_pos pos) (2 * Real.pi)
  if arc_start_angle ≤ arc_end_angle then
    arc_angle > arc_start_angle ∧ arc_angle < arc_end_angle
  else
    arc_angle > arc_start_angle ∨ arc_angle < arc_end_angle

lemma arc_band_characterization (s : ArcTrailSection) (pos : Pos2) (dist : ℝ)
    (hcap1 : ¬ s.start_pos.distance pos < 0.5 * s.thickness + dist)
    (hcap2 : ¬ s.end_pos.distance pos < 0.5 * s.thickness + dist)
    (hband : radialBand s pos dist) :
    (intersects_arc_trailsection s pos dist = true ↔ arcAngularBetween s pos) := by
  obtain ⟨hb1, hb2⟩ := hband
  unfold intersects_arc_trailsection arcAngularBetween
  rw [if_neg (by push_neg; exact ⟨not_lt.mp hcap1, not_lt.mp hcap2⟩)]
  rw [if_neg (by push_neg; exact ⟨not_lt.mp (not_lt.mpr hb1), not_lt.mp (not_lt.mpr hb2)⟩)]
  split_ifs <;> simp

/-- The right-turning reference arc sweeping player heading `0` to `3π/2`. -/
def refArc : ArcTrailSection :=
  ⟨⟨0, 0⟩, false, 4, .rightTurn, 50, 0, 3 * Real.pi / 2⟩

lemma refArc_center : refArc.center_pos = (⟨0, 50⟩ : Pos2) := by
  simp only [refArc, ArcTrailSection.center_pos, ArcTrailSection.arc_start_angle,
    TurnDirection.angle_sign]
  rw [show (0 : ℝ) - Real.pi / 2 * 1 = -(Real.pi/2) by ring]
  rw [Real.cos_neg, Real.sin_neg, Real.cos_pi_div_two, Real.sin_pi_div_two]
  norm_num

lemma refArc_end_pos : refArc.end_pos = (⟨-50, 50⟩ : Pos2) := by
  simp only [refArc, ArcTrailSection.end_pos, ArcTrailSection.arc_start_angle,
    ArcTrailSection.arc_end_angle, TurnDirection.angle_sign]
  rw [show (0 : ℝ) - Real.pi / 2 * 1 = -(Real.pi/2) by ring]
  rw [show (3 * Real.pi / 2 : ℝ) - Real.pi / 2 * 1 = Real.pi by ring]
  rw [Real.cos_neg, Real.sin_neg, Real.cos_pi_div_two, Real.sin_pi_div_two,
    Real.cos_pi, Real.sin_pi]
  norm_num

/-- The probe at the angular midpoint of the swept band. -/
def probeMid : Pos2 := ⟨25 * Real.sqrt 2, 50 + 25 * Real.sqrt 2⟩

/-- The probe in the un-swept 90-degree remainder. -/
def probeUn : Pos2 := ⟨-(25 * Real.sqrt 2), 50 - 25 * Real.sqrt 2⟩

lemma sqrt_two_sq : (Real.sqrt 2) ^ 2 = 2 := Real.sq_sqrt (by norm_num)

lemma sqrt_two_gt_one : 1 < Real.sqrt 2 := by
  rw [show (1:ℝ) = Real.sqrt 1 by simp]
  exact Real.sqrt_lt_sqrt (by norm_num) (by norm_num)

lemma sqrt_two_lt : Real.sqrt 2 < 3/2 := by
  rw [Real.sqrt_lt' (by norm_num)]
  norm_num

lemma probeMid_band : radialBand refArc probeMid 0 := by
  have h := sqrt_two_sq
  have h1 := sqrt_two_gt_one
  unfold radialBand
  rw [refArc_center]
  simp only [refArc, probeMid]
  constructor
  · rw [le_distance_iff (by norm_num)]
    nlinarith
  · rw [distance_le_iff (by norm_num)]
    nlinarith

lemma probeMid_cap1 : ¬ refArc.start_pos.distance probeMid < 0.5 * refArc.thickness + 0 := by
  simp only [refArc, probeMid]
  rw [not_lt, le_distance_iff (by norm_num)]
  nlinarith [sqrt_two_sq, sqrt_two_gt_one, Real.sqrt_nonneg 2]

lemma probeMid_cap2 : ¬ refArc.end_pos.distance probeMid < 0.5 * refArc.thickness + 0 := by
  rw [refArc_end_pos]
  simp only [refArc, probeMid]
  rw [not_lt, le_distance_iff (by norm_num)]
  nlinarith [sqrt_two_sq, sqrt_two_gt_one, Real.sqrt_nonneg 2]

lemma probeMid_between : arcAngularBetween refArc probeMid := by
  have hpi := Real.pi_pos
  have hangM : angle (⟨0, 50⟩ : Pos2) probeMid = Real.pi/4 := by
    simp only [angle, probeMid]
    rw [show (50 + 25*Real.sqrt 2 - 50 : ℝ) = 25*Real.sqrt 2 by ring]
    rw [show (25*Real.sqrt 2 - 0 : ℝ) = 25*Real.sqrt 2 by ring]
    rw [atan2_pos_x _ (by positivity)]
    rw [div_self (by positivity)]
    exact Real.arctan_one
  simp only [arcAngularBetween]
  rw [refArc_center]
  simp only [refArc, ArcTrailSection.arc_start_angle, ArcTrailSection.arc_end_angle,
    TurnDirection.angle_sign]
  simp only [if_true]
  rw [hangM]
  rw [show (0 : ℝ) - Real.pi / 2 * 1 = -(Real.pi/2) by ring]
  rw [show (3 * Real.pi / 2 : ℝ) - Real.pi / 2 * 1 = Real.pi by ring]
  rw [remEuclid_of_neg (by linarith) (by linarith) (by linarith)]
  rw [remEuclid_of_nonneg_of_lt hpi.le (by linarith)]
  rw [remEuclid_of_nonneg_of_lt (by linarith) (by linarith)]
  rw [if_neg (by push_neg; linarith)]
  right
  linarith

lemma atan2_zero_x_neg_y {y : ℝ} (hy : y < 0) : atan2 y 0 = -(Real.pi/2) := by
  simp [atan2, hy, asymm hy]

lemma probeUn_cap1 : ¬ refArc.start_pos.distance probeUn < 0.5 * refArc.thickness + 0 := by
  simp only [refArc, probeUn]
  rw [not_lt, le_distance_iff (by norm_num)]
  nlinarith [sqrt_two_sq, sqrt_two_lt, Real.sqrt_nonneg 2]

lemma probeUn_cap2 : ¬ refArc.end_pos.distance probeUn < 0.5 * refArc.thickness + 0 := by
  rw [refArc_end_pos]
  simp only [refArc, probeUn]
  rw [not_lt, le_distance_iff (by norm_num)]
  nlinarith [sqrt_two_sq, sqrt_two_lt, Real.sqrt_nonneg 2]

lemma probeUn_band : radialBand refArc probeUn 0 := by
  have h := sqrt_two_sq
  unfold radialBand
  rw [refArc_center]
  simp only [refArc, probeUn]
  constructor
  · rw [le_distance_iff (by norm_num)]
    nlinarith
  · rw [distance_le_iff (by norm_num)]
    nlinarith

lemma probeUn_not_between : ¬ arcAngularBetween refArc probeUn := by
  have hpi := Real.pi_pos
  have hangU : angle (⟨0, 50⟩ : Pos2) probeUn = Real.arctan 1 - Real.pi := by
    simp only [angle, probeUn]
    rw [show (50 - 25*Real.sqrt 2 - 50 : ℝ) = -(25*Real.sqrt 2) by ring]
    rw [show (-(25*Real.sqrt 2) - 0 : ℝ) = -(25*Real.sqrt 2) by ring]
    rw [atan2_neg_x_neg_y (neg_lt_zero.mpr (by positivity)) (neg_lt_zero.mpr (by positivity))]
    rw [neg_div_neg_eq, div_self (by positivity)]
  simp only [arcAngularBetween]
  rw [refArc_center]
  simp only [refArc, ArcTrailSection.arc_start_angle, ArcTrailSection.arc_end_angle,
    TurnDirection.angle_sign]
  simp only [if_true]
  rw [hangU, Real.arctan_one]
  rw [show (0 : ℝ) - Real.pi / 2 * 1 = -(Real.pi/2) by ring]
  rw [show (3 * Real.pi / 2 : ℝ) - Real.pi / 2 * 1 = Real.pi by ring]
  rw [remEuclid_of_neg (by linarith) (by linarith) (by linarith)]
  rw [remEuclid_of_nonneg_of_lt hpi.le (by linarith)]
  rw [remEuclid_of_neg (by linarith) (by linarith) (by linarith)]
  rw [if_neg (by push_neg; linarith)]
  push_neg
  constructor
  · linarith
  · linarith

lemma eval_arc_mid : intersects_arc_trailsection refArc probeMid 0 = true :=
  (arc_band_characterization refArc probeMid 0 probeMid_cap1 probeMid_cap2
    probeMid_band).mpr probeMid_between

lemma eval_arc_un : intersects_arc_trailsection refArc probeUn 0 = false := by
  rw [Bool.eq_false_iff, ne_eq]
  rw [arc_band_characterization refArc probeUn 0 probeUn_cap1 probeUn_cap2 probeUn_band]
  exact probeUn_not_between

/-- A right-turning half-circle arc: its start position lies inside the
endpoint cap while its center angle is not strictly between the normalized
bounds. -/
def halfArc : ArcTrailSection := ⟨⟨0, 0⟩, false, 4, .rightTurn, 50, 0, Real.pi⟩

lemma halfArc_center : halfArc.center_pos = (⟨0, 50⟩ : Pos2) := by
  simp only [halfArc, ArcTrailSection.center_pos, ArcTrailSection.arc_start_angle,
    TurnDirection.angle_sign]
  rw [show (0 : ℝ) - Real.pi / 2 * 1 = -(Real.pi/2) by ring]
  rw [Real.cos_neg, Real.sin_neg, Real.cos_pi_div_two, Real.sin_pi_div_two]
  norm_num

lemma halfArc_hit : intersects_arc_trailsection halfArc ⟨0, 0⟩ 0 = true := by
  have h : halfArc.start_pos.distance ⟨0, 0⟩ < 0.5 * halfArc.thickness + 0 := by
    simp only [halfArc]
    rw [distance_self]
    norm_num
  unfold intersects_arc_trailsection
  rw [if_pos (Or.inl h)]

lemma halfArc_band : radialBand halfArc ⟨0, 0⟩ 0 := by
  unfold radialBand
  rw [halfArc_center]
  simp only [halfArc]
  constructor
  · rw [le_distance_iff (by norm_num)]
    norm_num
  · rw [distance_le_iff (by norm_num)]
    norm_num

lemma halfArc_not_between : ¬ arcAngularBetween halfArc ⟨0, 0⟩ := by
  have hpi := Real.pi_pos
  have hang : angle (⟨0, 50⟩ : Pos2) ⟨0, 0⟩ = -(Real.pi/2) := by
    simp only [angle]
    rw [show (0 - 50 : ℝ) = -50 by norm_num, show (0 - 0 : ℝ) = 0 by norm_num]
    exact atan2_zero_x_neg_y (by norm_num)
  simp only [arcAngularBetween]
  rw [halfArc_center]
  simp only [halfArc, ArcTrailSection.arc_start_angle, ArcTrailSection.arc_end_angle,
    TurnDirection.angle_sign]
  simp only [if_true]
  rw [hang]
  rw [show (0 : ℝ) - Real.pi / 2 * 1 = -(Real.pi/2) by ring]
  rw [show (Real.pi : ℝ) - Real.pi / 2 * 1 = Real.pi/2 by ring]
  rw [remEuclid_of_neg (by linarith) (by linarith) (by linarith)]
  rw [remEuclid_of_nonneg_of_lt (by linarith) (by linarith)]
  rw [if_neg (by push_neg; linarith)]
  push_neg
  exact ⟨by linarith, by linarith⟩

/-- C3 (counterexample): the claimed equivalence "a probe in the radial band
hits iff its center angle falls strictly between the normalized start and
end" fails at the start point of a half-circle arc: the probe lies in the
radial band and the test reports a hit through the endpoint-cap shortcut,
yet its angle is not strictly between the bounds. -/
theorem arc_band_iff_fails_at_cap :
    radialBand halfArc ⟨0, 0⟩ 0 ∧
    intersects_arc_trailsection halfArc ⟨0, 0⟩ 0 = true ∧
    ¬ arcAngularBetween halfArc ⟨0, 0⟩ :=
  ⟨halfArc_band, halfArc_hit, halfArc_not_between⟩

/-- C3 (amended): for a probe in the radial band that is additionally
outside both endpoint caps, the thick arc test hits exactly when the
probe's center angle falls strictly between the normalized (swapped when
turning left) start and end angles, with wraparound when start exceeds
end; and for the right-turning arc sweeping heading `0` to `3π/2`, the
probe at the angular midpoint of the swept band hits while the probe in
the un-swept 90-degree remainder does not. -/
theorem arc_band_test_characterized :
    (∀ (s : ArcTrailSection) (pos : Pos2) (dist : ℝ),
        ¬ s.start_pos.distance pos < 0.5 * s.thickness + dist →
        ¬ s.end_pos.distance pos < 0.5 * s.thickness + dist →
        radialBand s pos dist →
        (intersects_arc_trailsection s pos dist = true ↔ arcAngularBetween s pos)) ∧
    intersects_arc_trailsection refArc probeMid 0 = true ∧
    intersects_arc_trailsection refArc probeUn 0 = false :=
  ⟨arc_band_characterization, eval_arc_mid, eval_arc_un⟩

/-- Gap-flagged sections are transparent to the generic trail test. -/
lemma intersects_trail_all_gap (pos : Pos2) (dist : ℝ) :
    ∀ trail : List TrailSection, (∀ s ∈ trail, s.gap = true) →
      intersects_trail pos dist trail = false := by
  intro trail
  induction trail with
  | nil => intro _; rfl
  | cons s rest ih =>
    intro h
    have hs : s.gap = true := h s (List.mem_cons_self s rest)
    have hrest := ih fun t ht => h t (List.mem_cons_of_mem s ht)
    unfold intersects_trail
    rw [if_pos hs]
    exact hrest

/-- A gap-flagged full-turn arc section looping back onto its own start. -/
def gapLoopArc : ArcTrailSection := ⟨⟨0, 0⟩, true, 4, .rightTurn, 50, 0, 2 * Real.pi⟩

/-- A player standing on the closing point of its own gap-flagged loop. -/
def gapLoopPlayer : Player :=
  { id := 0, name := "P", trail := [.arc gapLoopArc], pos := ⟨0, 0⟩, angle := 0,
    color := .orange, effects := [], left_key := 0, right_key := 0,
    local_direction := .straight, remote_direction := .straight,
    just_crashed := false, crashed := false, score := 0 }

lemma gapLoopArc_end_pos : gapLoopArc.end_pos = (⟨0, 0⟩ : Pos2) := by
  simp only [gapLoopArc, ArcTrailSection.end_pos, ArcTrailSection.arc_start_angle,
    ArcTrailSection.arc_end_angle, TurnDirection.angle_sign]
  rw [show (0 : ℝ) - Real.pi / 2 * 1 = -(Real.pi/2) by ring]
  rw [show (2 * Real.pi : ℝ) - Real.pi / 2 * 1 = Real.pi + Real.pi/2 by ring]
  rw [Real.cos_neg, Real.sin_neg, Real.cos_add, Real.sin_add, Real.cos_pi,
    Real.sin_pi, Real.cos_pi_div_two, Real.sin_pi_div_two]
  norm_num

lemma gapLoopPlayer_thickness : gapLoopPlayer.thickness = 4 := by
  simp [gapLoopPlayer, Player.thickness, BASE_THICKNESS, MIN_THICKNESS]

lemma eval_gap_loop_hit : intersects_own_trail gapLoopPlayer = true := by
  have hpi := Real.pi_pos
  have hend : (TrailSection.arc gapLoopArc).end_pos = (⟨0, 0⟩ : Pos2) :=
    gapLoopArc_end_pos
  have hpos : gapLoopPlayer.pos = (⟨0, 0⟩ : Pos2) := rfl
  have hth : (TrailSection.arc gapLoopArc).thickness = 4 := rfl
  have habs : |(0 : ℝ) - 2 * Real.pi| = 2 * Real.pi := by
    rw [abs_of_nonpos (by linarith)]
    ring
  unfold intersects_own_trail
  rw [List.any_eq_true]
  refine ⟨.arc gapLoopArc, List.mem_singleton_self _, ?_⟩
  simp only [ownTrailStep, hend, hpos, hth, gapLoopPlayer_thickness, distance_self]
  simp only [gapLoopArc]
  norm_num [habs, show (2 * Real.pi > Real.pi) from by linarith]
  constructor
  · rw [abs_of_pos (by linarith)]
    linarith
  · rw [distance_self]
    norm_num

/-- C4 (counterexample): every section of this player's trail is
gap-flagged, yet the self-collision check reports a hit: the special-case
branch for a section whose end lies within minimum clearance (arc swept
angle over `π`, start also within clearance) never consults the gap
flag. -/
theorem gap_section_hit_by_special_case :
    (∀ s ∈ gapLoopPlayer.trail, s.gap = true) ∧
    intersects_own_trail gapLoopPlayer = true := by
  refine ⟨?_, eval_gap_loop_hit⟩
  intro s hs
  simp only [gapLoopPlayer, List.mem_singleton] at hs
  subst hs
  rfl

/-- C4 (amended): gap-flagged sections are skipped by the generic trail
test `intersects_trail` — hence by cross-player checks and by the generic
branch of the self-collision check — but the special-case branch of
`intersects_own_trail` for a section whose end lies within minimum
clearance ignores the gap flag and can register a hit against a
gap-flagged arc. -/
theorem gap_sections_transparent_except_special_case :
    (∀ (pos : Pos2) (dist : ℝ) (trail : List TrailSection),
        (∀ s ∈ trail, s.gap = true) → intersects_trail pos dist trail = false) ∧
    ((∀ s ∈ gapLoopPlayer.trail, s.gap = true) ∧
      intersects_own_trail gapLoopPlayer = true) := by
  refine ⟨fun pos dist => intersects_trail_all_gap pos dist, ?_, eval_gap_loop_hit⟩
  intro s hs
  simp only [gapLoopPlayer, List.mem_singleton] at hs
  subst hs
  rfl

/-- What the arc movement step must produce, per the spec's formulas: the
end angle advances by `delta_time * speed / radius * sign(dir)`, the
position is `start_pos + radius * [(cos,sin)(end_angle - pi/2 * sign) -
(cos,sin)(start_angle - pi/2 * sign)]`, and the heading becomes the new
end angle. -/
def ArcStepSpec (clock : Clock) (p : Player) (ts : List TrailSection)
    (s : ArcTrailSection) : Prop :=
  ∃ p' : Player,
    update_trail_section clock p = some p' ∧
    p'.trail = ts ++ [.arc { s with player_end_angle :=
        s.player_end_angle + clock.frame_delta * p.speed / s.radius * s.dir.angle_sign }] ∧
    p'.angle = s.player_end_angle +
        clock.frame_delta * p.speed / s.radius * s.dir.angle_sign ∧
    p'.pos = ⟨s.start_pos.x + s.radius *
          (Real.cos (p'.angle - Real.pi / 2 * s.dir.angle_sign) -
            Real.cos (s.player_start_angle - Real.pi / 2 * s.dir.angle_sign)),
        s.start_pos.y + s.radius *
          (Real.sin (p'.angle - Real.pi / 2 * s.dir.angle_sign) -
            Real.sin (s.player_start_angle - Real.pi / 2 * s.dir.angle_sign))⟩ ∧
    TurnDirection.rightTurn.angle_sign = 1 ∧ TurnDirection.leftTurn.angle_sign = -1

/-- C1: when a player's last trail section is an arc being extended, the
movement step advances `player_end_angle` by exactly
`delta_time * speed / radius * sign(dir)` with `sign(Right) = 1` and
`sign(Left) = -1`, then derives the player's position from the arc's
end-angle formula and sets the heading to the new end angle. -/
theorem arc_extension_step (clock : Clock) (p : Player) (ts : List TrailSection)
    (s : ArcTrailSection) (h : p.trail = ts ++ [.arc s]) :
    ArcStepSpec clock p ts s := by
  unfold ArcStepSpec update_trail_section
  rw [h, List.getLast?_concat, List.dropLast_concat]
  refine ⟨_, rfl, rfl, rfl, ?_, rfl, rfl⟩
  simp only [ArcTrailSection.end_pos, ArcTrailSection.arc_start_angle,
    ArcTrailSection.arc_end_angle]
  have hx : ∀ a b c : ℝ, a + (b - c) * s.radius = a + s.radius * (b - c) := by
    intro a b c; ring
  exact congrArg₂ Pos2.mk (hx _ _ _) (hx _ _ _)

/-- The sample arc and player exercising the arc movement step. -/
def sampleArc : ArcTrailSection := ⟨⟨1, 2⟩, false, 4, .rightTurn, 50, 0, 0⟩

def samplePlayer : Player :=
  { id := 0, name := "P", trail := [.arc sampleArc], pos := ⟨1, 2⟩, angle := 0,
    color := .orange, effects := [], left_key := 0, right_key := 0,
    local_direction := .right, remote_direction := .straight,
    just_crashed := false, crashed := false, score := 0 }

def sampleClock : Clock := ⟨0, 0, 1⟩

/-- Witness for C1 at a concrete arc-extending player. -/
theorem arc_extension_step_witness : ArcStepSpec sampleClock samplePlayer [] sampleArc :=
  arc_extension_step sampleClock samplePlayer [] sampleArc rfl

lemma add_trail_section_trail (p : Player) :
    ∃ t : TrailSection, (add_trail_section p).trail = p.trail ++ [t] := by
  unfold add_trail_section
  cases hd : p.direction.turning_direction with
  | none => exact ⟨_, rfl⟩
  | some dir => exact ⟨_, rfl⟩

lemma update_trail_section_total (clock : Clock) (p : Player)
    (h : p.trail ≠ []) :
    ∃ p', update_trail_section clock p = some p' ∧ p'.trail ≠ [] := by
  obtain ⟨l, hl⟩ := Option.isSome_iff_exists.mp (List.getLast?_isSome.mpr h)
  unfold update_trail_section
  rw [hl]
  cases l with
  | straight s => exact ⟨_, rfl, by simp⟩
  | arc s => exact ⟨_, rfl, by simp⟩

lemma move_player_total_aux (clock : Clock) (p : Player) :
    ∃ p', move_player clock p = some p' ∧ p'.trail ≠ [] := by
  unfold move_player
  by_cases he : p.trail.isEmpty
  · rw [if_pos he]
    obtain ⟨t, ht⟩ := add_trail_section_trail p
    exact ⟨_, rfl, by simp [ht]⟩
  · rw [if_neg he]
    have hne : p.trail ≠ [] := by
      simpa [List.isEmpty_iff] using he
    obtain ⟨l, hl⟩ := Option.isSome_iff_exists.mp (List.getLast?_isSome.mpr hne)
    rw [hl]
    cases l with
    | straight s =>
      dsimp only
      split_ifs with h1
      · obtain ⟨t, ht⟩ := add_trail_section_trail p
        exact update_trail_section_total clock _ (by simp [ht])
      · exact update_trail_section_total clock _ hne
    | arc s =>
      dsimp only
      split_ifs with h1 h2
      · obtain ⟨t, ht⟩ := add_trail_section_trail p
        exact update_trail_section_total clock _ (by simp [ht])
      · obtain ⟨t, ht⟩ := add_trail_section_trail p
        exact update_trail_section_total clock _ (by simp [ht])
      · exact update_trail_section_total clock _ hne

/-- C10: for every player state and clock, `move_player` returns without
panicking and leaves the trail non-empty; consequently the
`expect("There should be at least on trail section")` calls in
`move_player` and `update_trail_section` are unreachable. -/
theorem move_player_total (clock : Clock) (p : Player) :
    ∃ p', move_player clock p = some p' ∧ p'.trail ≠ [] :=
  move_player_total_aux clock p

/-- C8: `Clock::update` zeroes `frame_delta` whenever the game state is
`Paused` or `Stopped` (so `now` does not advance), and otherwise sets it
to the fixed tick quantum `UPDATE_TIME` and advances `now` by exactly
`frame_delta`; the older revision's measured variant behaves the same with
the wall-clock elapsed time in place of the quantum. -/
theorem clock_update_behavior (c : Clock) (realNow : ℝ) (state : GameState) :
    ((∀ t : ℝ, state = .paused t ∨ state = .stopped t →
        (c.update realNow state).frame_delta = 0 ∧
        (c.update realNow state).now = c.now) ∧
      (∀ t : ℝ, state = .starting t ∨ state = .running t →
        (c.update realNow state).frame_delta = UPDATE_TIME ∧
        (c.update realNow state).now = c.now + (c.update realNow state).frame_delta)) ∧
    ((c.update_measured realNow true).frame_delta = 0 ∧
      (c.update_measured realNow true).now = c.now) ∧
    ((c.update_measured realNow false).frame_delta = realNow - c.last_frame ∧
      (c.update_measured realNow false).now =
        c.now + (c.update_measured realNow false).frame_delta) := by
  refine ⟨⟨?_, ?_⟩, ⟨?_, ?_⟩, ?_, ?_⟩ <;>
    cases state <;>
      simp [Clock.update, Clock.update_measured]

/-- A placeholder player for concrete world states. -/
def dummyPlayer : Player :=
  { id := 0, name := "P", trail := [], pos := ⟨100, 100⟩, angle := 0,
    color := .orange, effects := [], left_key := 0, right_key := 0,
    local_direction := .straight, remote_direction := .straight,
    just_crashed := false, crashed := false, score := 0 }

/-- A world holding three players, where the out-of-range remove panics. -/
def threePlayerWorld : World :=
  ⟨3, true, ⟨0, 0, 0⟩, .running 0, [], [],
   [dummyPlayer, dummyPlayer, dummyPlayer], []⟩

/-- C9 (counterexample): with more than 2 players, `remove_player` with an
out-of-range index panics (`Vec::remove` bounds check), refuting "never
panics for any index". -/
theorem remove_player_out_of_range_panics :
    World.remove_player threePlayerWorld 5 = none := by
  unfold World.remove_player
  rw [if_pos (by norm_num [threePlayerWorld])]
  rw [if_neg (by norm_num [threePlayerWorld])]

/-- C9 (amended): `remove_player` with 2 or fewer players is a silent no-op
and cannot panic, `restart` while not `Stopped` changes nothing, and
`remove_player` with an in-range index never panics; but an out-of-range
index with more than 2 players does panic. -/
theorem invalid_mutations_guarded :
    (∀ (w : World) (idx : ℕ), w.players.length ≤ 2 →
        w.remove_player idx = some w) ∧
    (∀ (w : World) (rng : Rng), (∀ t : ℝ, w.state ≠ .stopped t) →
        w.restart rng = (w, rng)) ∧
    (∀ (w : World) (idx : ℕ), 2 < w.players.length → idx < w.players.length →
        ∃ w', w.remove_player idx = some w' ∧
          w'.players.length = w.players.length - 1) := by
  refine ⟨?_, ?_, ?_⟩
  · intro w idx hle
    unfold World.remove_player
    rw [if_neg (by omega)]
  · intro w rng hns
    unfold World.restart
    cases hs : w.state with
    | stopped t => exact absurd hs (hns t)
    | starting t => rfl
    | running t => rfl
    | paused t => rfl
  · intro w idx h2 hidx
    unfold World.remove_player
    rw [if_pos h2, if_pos hidx]
    exact ⟨_, rfl, by simp [List.length_eraseIdx, hidx]⟩

/-! Frame lemmas: which fields each phase of the tick can touch. -/

/-- Score, crash flag and (monotone) just-crash flag tracking between a
player and its image under a tick phase. -/
def ScoreFlagsRel (p q : Player) : Prop :=
  q.score = p.score ∧ q.crashed = p.crashed ∧
  (p.just_crashed = true → q.just_crashed = true)

lemma ScoreFlagsRel.srefl (p : Player) : ScoreFlagsRel p p := ⟨rfl, rfl, fun h => h⟩

lemma ScoreFlagsRel.strans {p q r : Player} (h1 : ScoreFlagsRel p q)
    (h2 : ScoreFlagsRel q r) : ScoreFlagsRel p r :=
  ⟨h2.1.trans h1.1, h2.2.1.trans h1.2.1, fun h => h2.2.2 (h1.2.2 h)⟩

lemma add_trail_section_scoreFlags (p : Player) :
    ScoreFlagsRel p (add_trail_section p) := by
  unfold add_trail_section
  cases p.direction.turning_direction with
  | none => exact ⟨rfl, rfl, fun h => h⟩
  | some dir => exact ⟨rfl, rfl, fun h => h⟩

lemma update_trail_section_scoreFlags {clock : Clock} {p p' : Player}
    (h : update_trail_section clock p = some p') : ScoreFlagsRel p p' := by
  unfold update_trail_section at h
  rcases hl : p.trail.getLast? with _ | l
  · rw [hl] at h
    exact absurd h (by simp)
  · rw [hl] at h
    cases l with
    | straight s =>
      simp only [Option.some.injEq] at h
      subst h
      exact ⟨rfl, rfl, fun h => h⟩
    | arc s =>
      simp only [Option.some.injEq] at h
      subst h
      exact ⟨rfl, rfl, fun h => h⟩

lemma move_player_scoreFlags {clock : Clock} {p p' : Player}
    (h : move_player clock p = some p') : ScoreFlagsRel p p' := by
  unfold move_player at h
  split_ifs at h with he
  · simp only [Option.some.injEq] at h
    subst h
    exact add_trail_section_scoreFlags p
  · rcases hl : p.trail.getLast? with _ | l
    · rw [hl] at h
      exact absurd h (by simp)
    · rw [hl] at h
      cases l with
      | straight s =>
        dsimp only at h
        split_ifs at h with h1
        · exact (add_trail_section_scoreFlags p).strans (update_trail_section_scoreFlags h)
        · exact update_trail_section_scoreFlags h
      | arc s =>
        dsimp only at h
        split_ifs at h with h1 h2
        · exact (add_trail_section_scoreFlags p).strans (update_trail_section_scoreFlags h)
        · exact (add_trail_section_scoreFlags p).strans (update_trail_section_scoreFlags h)
        · exact update_trail_section_scoreFlags h

lemma movementStep_spec (clock : Clock) (p : Player) (rng : Rng) :
    ∃ p' rng', movementStep clock p rng = some (p', rng') ∧ ScoreFlagsRel p p' := by
  unfold movementStep
  dsimp only [Rng.nextReal, Rng.nextNat]
  split_ifs with h1 h2 h3
  · exact ⟨_, _, rfl, ⟨rfl, rfl, fun h => h⟩⟩
  · obtain ⟨p', hmv⟩ :=
      (move_player_total_aux clock _).imp fun p' h => h.1
    rw [hmv]
    have h2 := move_player_scoreFlags hmv
    exact ⟨p', _, rfl, h2.1, h2.2.1, fun hh => h2.2.2 hh⟩
  · obtain ⟨p', hmv⟩ :=
      (move_player_total_aux clock _).imp fun p' h => h.1
    rw [hmv]
    have h2 := move_player_scoreFlags hmv
    exact ⟨p', _, rfl, h2.1, h2.2.1, fun hh => h2.2.2 hh⟩
  · obtain ⟨p', hmv⟩ :=
      (move_player_total_aux clock _).imp fun p' h => h.1
    rw [hmv]
    have h2 := move_player_scoreFlags hmv
    exact ⟨p', _, rfl, h2.1, h2.2.1, fun hh => h2.2.2 hh⟩

/-- Positional frame relation over whole player lists. -/
def FrameRel (ps ps' : List Player) : Prop :=
  ps'.length = ps.length ∧
  ∀ j q q', ps.get? j = some q → ps'.get? j = some q' → ScoreFlagsRel q q'

lemma FrameRel.frefl (ps : List Player) : FrameRel ps ps :=
  ⟨rfl, fun _ q q' h h' => by
    rw [h] at h'
    cases h'
    exact ScoreFlagsRel.srefl q⟩

lemma FrameRel.ftrans {a b c : List Player} (h1 : FrameRel a b) (h2 : FrameRel b c) :
    FrameRel a c := by
  refine ⟨h2.1.trans h1.1, fun j q q'' hq hq'' => ?_⟩
  have hlen : b.length = a.length := h1.1
  have hj : j < b.length := by
    have hja : j < a.length := by
      by_contra hge
      rw [List.get?_eq_none.mpr (le_of_not_lt hge)] at hq
      cases hq
    omega
  have hsome : (b.get? j).isSome := by
    rw [List.get?_eq_get hj]
    rfl
  obtain ⟨qb, hqb⟩ := Option.isSome_iff_exists.mp hsome
  exact (h1.2 j q qb hq hqb).strans (h2.2 j qb q'' hqb hq'')

lemma movementPhase_spec (clock : Clock) :
    ∀ (ps : List Player) (rng : Rng),
      ∃ ps' rng', movementPhase clock ps rng = some (ps', rng') ∧ FrameRel ps ps'
  | [], rng => ⟨[], rng, rfl, FrameRel.frefl []⟩
  | p :: ps, rng => by
    obtain ⟨p', rng1, hstep, hrel⟩ := movementStep_spec clock p rng
    obtain ⟨ps', rng2, hrest, hrels⟩ := movementPhase_spec clock ps rng1
    refine ⟨p' :: ps', rng2, ?_, ?_⟩
    · simp only [movementPhase, hstep, hrest]
    · refine ⟨by simp [hrels.1], fun j q q' hq hq' => ?_⟩
      cases j with
      | zero =>
        simp only [List.get?] at hq hq'
        cases hq
        cases hq'
        exact hrel
      | succ j =>
        simp only [List.get?] at hq hq'
        exact hrels.2 j q q' hq hq'

lemma collectItems_player_frame (clock : Clock) :
    ∀ (items : List Item) (p : Player) (w : List (Effect WorldEffect))
      (r : Rng) (c : Bool),
      (collectItems clock p items w r c).1 =
        { p with effects := (collectItems clock p items w r c).1.effects }
  | [], p, w, r, c => rfl
  | item :: rest, p, w, r, c => by
    unfold collectItems
    dsimp only
    split_ifs with h
    · cases item.kind <;>
        · dsimp only [Rng.nextNat]
          exact collectItems_player_frame clock rest _ _ _ _
    · dsimp only
      rcases hE : collectItems clock p rest w r c with ⟨p', rest'⟩
      have ih := collectItems_player_frame clock rest p w r c
      rw [hE] at ih
      exact ih

lemma collectItems_scoreFlags (clock : Clock) (items : List Item) (p : Player)
    (w : List (Effect WorldEffect)) (r : Rng) (c : Bool) :
    ScoreFlagsRel p (collectItems clock p items w r c).1 := by
  have h := collectItems_player_frame clock items p w r c
  rw [h]
  exact ⟨rfl, rfl, fun hh => hh⟩

lemma scoreFlags_add_pos (p : Player) (pos : Pos2) :
    ScoreFlagsRel p (add_trail_section { p with pos := pos }) := by
  have h := add_trail_section_scoreFlags { p with pos := pos }
  exact ⟨h.1, h.2.1, fun hh => h.2.2 hh⟩

lemma jcSet_scoreFlags (p : Player) :
    ScoreFlagsRel p { p with just_crashed := true } :=
  ⟨rfl, rfl, fun _ => rfl⟩

lemma wallCheck_scoreFlags (clock : Clock) (wt : Bool) (feed : List Crash)
    (p0 : Player) :
    ScoreFlagsRel p0 (wallCheck clock wt feed p0).1 := by
  unfold wallCheck
  dsimp only
  split_ifs <;>
    first
      | exact ScoreFlagsRel.srefl _
      | exact jcSet_scoreFlags _
      | exact scoreFlags_add_pos _ _
      | exact ScoreFlagsRel.strans (scoreFlags_add_pos _ _) (scoreFlags_add_pos _ _)

lemma checkCrashes_scoreFlags (clock : Clock) (wt : Bool) (st : RunState)
    (pi : ℕ) (p0 : Player) :
    ScoreFlagsRel p0 (checkCrashes clock wt st pi p0).1 := by
  unfold checkCrashes
  rcases hW : wallCheck clock wt st.crash_feed p0 with ⟨p1, feed1⟩
  have hrel1 : ScoreFlagsRel p0 p1 := by
    have h := wallCheck_scoreFlags clock wt st.crash_feed p0
    rw [hW] at h
    exact h
  dsimp only
  split_ifs with hg hown
  · exact hrel1
  · dsimp only
    split
    · exact (hrel1.strans (jcSet_scoreFlags _)).strans (jcSet_scoreFlags _)
    · exact hrel1.strans (jcSet_scoreFlags _)
  · dsimp only
    split
    · exact hrel1.strans (jcSet_scoreFlags _)
    · exact hrel1

lemma FrameRel_set (ps : List Player) (pi : ℕ) (q p' : Player)
    (hget : ps.get? pi = some q) (hrel : ScoreFlagsRel q p') :
    FrameRel ps (ps.set pi p') := by
  have hlt : pi < ps.length := by
    by_contra hge
    rw [List.get?_eq_none.mpr (le_of_not_lt hge)] at hget
    cases hget
  refine ⟨by simp, fun j a a' ha ha' => ?_⟩
  by_cases hj : pi = j
  · subst hj
    rw [List.get?_set_eq_of_lt _ hlt] at ha'
    cases ha'
    rw [hget] at ha
    cases ha
    exact hrel
  · rw [List.get?_set_ne _ _ hj] at ha'
    rw [ha] at ha'
    cases ha'
    exact ScoreFlagsRel.srefl a

lemma FrameRel_clear_map (ps : List Player) :
    FrameRel ps (ps.map fun q => { q with trail := [] }) := by
  refine ⟨by simp, fun j a a' ha ha' => ?_⟩
  rw [List.get?_map, ha] at ha'
  cases ha'
  exact ⟨rfl, rfl, fun h => h⟩

lemma processPlayer_frame (clock : Clock) (wt : Bool) (st : RunState) (pi : ℕ) :
    FrameRel st.players (processPlayer clock wt st pi).players := by
  unfold processPlayer
  rcases hget : st.players.get? pi with _ | p0
  · exact FrameRel.frefl _
  · dsimp only
    simp only [List.set_set]
    have hrel3 : ScoreFlagsRel p0
        (collectItems clock (checkCrashes clock wt st pi p0).1 st.items st.effects
          st.rng false).1 :=
      (checkCrashes_scoreFlags clock wt st pi p0).strans
        (collectItems_scoreFlags clock st.items _ st.effects st.rng false)
    have hbase := FrameRel_set st.players pi p0 _ hget hrel3
    split_ifs with hc hclear
    · exact FrameRel.frefl _
    · exact hbase.ftrans (FrameRel_clear_map _)
    · exact hbase

lemma processLoop_frame (clock : Clock) (wt : Bool) :
    ∀ (l : List ℕ) (st : RunState),
      FrameRel st.players ((l.foldl (processPlayer clock wt) st).players)
  | [], st => FrameRel.frefl _
  | pi :: rest, st => by
    rw [List.foldl_cons]
    exact (processPlayer_frame clock wt st pi).ftrans
      (processLoop_frame clock wt rest _)

lemma chooseItemKindLoop_isSome :
    ∀ (ks : List ItemKind) (i idx : ℕ), idx ≤ i →
      i < idx + (ks.map ItemKind.spawn_rate).sum →
      (chooseItemKindLoop i ks idx).isSome
  | [], i, idx, hle, hlt => by
    simp only [List.map_nil, List.sum_nil, Nat.add_zero] at hlt
    omega
  | k :: rest, i, idx, hle, hlt => by
    unfold chooseItemKindLoop
    dsimp only
    split_ifs with h
    · rfl
    · refine chooseItemKindLoop_isSome rest i (idx + k.spawn_rate) (by omega) ?_
      simp only [List.map_cons, List.sum_cons] at hlt
      omega

lemma chooseItemKind_isSome (i : ℕ) (h : i < SUM_OF_ITEM_SPAWN_RATES) :
    (chooseItemKind i).isSome :=
  chooseItemKindLoop_isSome ITEM_KINDS i 0 (Nat.zero_le _)
    (by simpa [SUM_OF_ITEM_SPAWN_RATES] using h)

lemma spawnItems_total (clock : Clock) (players : List Player)
    (items : List Item) (rng : Rng) :
    ∃ items' rng', spawnItems clock players items rng = some (items', rng') := by
  unfold spawnItems
  dsimp only [Rng.nextReal, Rng.nextNat]
  split_ifs with h1 h2
  · split
    · split
      · exact ⟨_, _, rfl⟩
      · next hnone =>
          exfalso
          have hsome := chooseItemKind_isSome
            (rng.nats.headD 0 % SUM_OF_ITEM_SPAWN_RATES) (Nat.mod_lt _ (by decide))
          rw [hnone] at hsome
          cases hsome
    · exact ⟨_, _, rfl⟩
  · exact ⟨_, _, rfl⟩
  · exact ⟨_, _, rfl⟩

lemma commitPlayer_score (p : Player) : (commitPlayer p).score = p.score := by
  unfold commitPlayer
  split_ifs <;> rfl

lemma commitPlayer_jc (p : Player) :
    (commitPlayer p).just_crashed = p.just_crashed := by
  unfold commitPlayer
  split_ifs <;> rfl

lemma commitPlayer_crashed (p : Player) (hinv : p.crashed = true → p.just_crashed = true) :
    (commitPlayer p).crashed = p.just_crashed := by
  unfold commitPlayer
  split_ifs with h
  · simp [h]
  · cases hc : p.crashed
    · simp only [Bool.not_eq_true] at h
      simp [h]
    · exact absurd (hinv hc) h

lemma commitAndScore_spec (t : ℝ) (ps : List Player)
    (hinv : ∀ q ∈ ps, q.crashed = true → q.just_crashed = true)
    (halive : ((commitAndScore t ps).1.filter fun p => !p.crashed).length < 2) :
    (commitAndScore t ps).2 = GameState.stopped t ∧
    (commitAndScore t ps).1.length = ps.length ∧
    ∀ j q q', ps.get? j = some q → (commitAndScore t ps).1.get? j = some q' →
      (q'.crashed = false → q'.score = q.score + 1) ∧
      (q'.crashed = true → q'.score = q.score) := by
  have hcount : ((ps.map commitPlayer).filter fun p =>
        decide ¬(p.just_crashed = true)).length =
      ((ps.map commitPlayer).filter fun p => !p.crashed).length := by
    rw [← List.countP_eq_length_filter, ← List.countP_eq_length_filter]
    rw [List.countP_map, List.countP_map]
    refine List.countP_congr ?_
    intro q hq
    simp only [Function.comp]
    rw [commitPlayer_crashed q (hinv q hq), commitPlayer_jc q]
    cases q.just_crashed <;> simp
  unfold commitAndScore at halive ⊢
  dsimp only at halive ⊢
  by_cases hna : (((ps.map commitPlayer).filter fun p =>
      decide ¬(p.just_crashed = true)).length) < 2
  · rw [if_pos hna] at halive ⊢
    refine ⟨rfl, by simp, fun j q q' hq hq' => ?_⟩
    rw [List.get?_map, List.get?_map, hq] at hq'
    simp only [Option.map_some'] at hq'
    cases hq'
    unfold scorePlayer
    by_cases hc : (commitPlayer q).crashed = true
    · rw [if_neg (by simp [hc])]
      refine ⟨fun hfalse => ?_, fun _ => commitPlayer_score q⟩
      rw [hc] at hfalse
      cases hfalse
    · rw [if_pos (by simp [Bool.not_eq_true] at hc ⊢; exact hc)]
      have hc' : (commitPlayer q).crashed = false := by
        simpa [Bool.not_eq_true] using hc
      refine ⟨fun _ => ?_, fun htrue => ?_⟩
      · simp [commitPlayer_score q]
      · rw [hc'] at htrue
        cases htrue
  · rw [if_neg hna] at halive
    exact absurd (hcount.trans_lt halive) hna

lemma get?_some_of_lt {α : Type} {l : List α} {j : ℕ} (h : j < l.length) :
    ∃ a, l.get? j = some a := by
  have : (l.get? j).isSome := by
    rw [List.get?_eq_get h]
    rfl
  exact Option.isSome_iff_exists.mp this

/-- C5: while `Running`, if after the simultaneous `just_crashed` commit
fewer than 2 players remain un-crashed, then in that same update call
every remaining un-crashed player's score increases by exactly 1, crashed
players' scores are unchanged, and the state transitions to `Stopped`
(with the same start time); the 2-player case of the claim is the
instance where one player is marked crashed during the tick. -/
theorem survivor_scoring (rng : Rng) (realNow : ℝ) (w : World) (t : ℝ)
    (w' : World)
    (hst : w.state = .running t)
    (hinv : ∀ p ∈ w.players, p.crashed = true → p.just_crashed = true)
    (hupd : w.update rng realNow = some w')
    (halive : (w'.players.filter fun p => !p.crashed).length < 2) :
    w'.state = .stopped t ∧
    w'.players.length = w.players.length ∧
    ∀ j p p', w.players.get? j = some p → w'.players.get? j = some p' →
      (p'.crashed = false → p'.score = p.score + 1) ∧
      (p'.crashed = true → p'.score = p.score) := by
  unfold World.update at hupd
  rw [hst] at hupd
  dsimp only at hupd
  obtain ⟨items1, rng1, hsp⟩ :=
    spawnItems_total (w.clock.update realNow (.running t)) w.players w.items rng
  rw [hsp] at hupd
  dsimp only at hupd
  obtain ⟨ps1, rng2, hmv, hF1⟩ :=
    movementPhase_spec (w.clock.update realNow (.running t)) w.players rng1
  rw [hmv] at hupd
  dsimp only at hupd
  rw [Option.some_inj] at hupd
  subst hupd
  dsimp only at halive ⊢
  set C := w.clock.update realNow (GameState.running t) with hC
  set weffects := w.effects.filter fun e => e.start + e.duration > C.now with hweff
  set WT := weffects.any fun e => e.kind = WorldEffect.wallTeleporting with hWT
  set st0 : RunState := ⟨ps1, items1, weffects, w.crash_feed, rng2⟩ with hst0
  set STp := ((List.range ps1.length).foldl (processPlayer C WT) st0).players
    with hSTp
  have hF2 : FrameRel ps1 STp := processLoop_frame C WT (List.range ps1.length) st0
  have hF : FrameRel w.players STp := FrameRel.ftrans hF1 hF2
  have hlen : STp.length = w.players.length := hF.1
  have hinv2 : ∀ q ∈ STp, q.crashed = true → q.just_crashed = true := by
    intro q hq hcr
    obtain ⟨j, hj⟩ := List.mem_iff_get?.mp hq
    have hjlt : j < w.players.length := by
      rw [← hlen]
      by_contra hge
      rw [List.get?_eq_none.mpr (le_of_not_lt hge)] at hj
      cases hj
    obtain ⟨p, hp⟩ := get?_some_of_lt hjlt
    have hrel := hF.2 j p q hp hj
    exact hrel.2.2 (hinv p (List.get?_mem hp) (hrel.2.1 ▸ hcr))
  have hcs := commitAndScore_spec t STp hinv2 halive
  refine ⟨hcs.1, hcs.2.1.trans hlen, fun j p p' hp hp' => ?_⟩
  have hjlt : j < STp.length := by
    rw [hlen]
    by_contra hge
    rw [List.get?_eq_none.mpr (le_of_not_lt hge)] at hp
    cases hp
  obtain ⟨q, hq⟩ := get?_some_of_lt hjlt
  have hrel := hF.2 j p q hp hq
  have hcrel := hcs.2.2 j q p' hq hp'
  constructor
  · intro hu
    rw [hcrel.1 hu, hrel.1]
  · intro hu
    rw [hcrel.2 hu, hrel.1]

lemma effects_nil_gap {p : Player} (h : p.effects = []) : p.gap = false := by
  simp [Player.gap, h]

lemma effects_nil_no_gap {p : Player} (h : p.effects = []) : p.no_gap = false := by
  simp [Player.no_gap, h]

lemma effects_nil_thickness {p : Player} (h : p.effects = []) : p.thickness = 4 := by
  simp [Player.thickness, h, BASE_THICKNESS, MIN_THICKNESS]
  try norm_num [max_def]

lemma effects_nil_speed {p : Player} (h : p.effects = []) : p.speed = 150 := by
  simp [Player.speed, h, BASE_SPEED, MIN_SPEED]
  try norm_num [max_def]

lemma angle_self (a : Pos2) : angle a a = 0 := by
  simp [angle, sub_self, atan2_zero_zero]

lemma intersects_degenerate_straight (a pos : Pos2) (g : Bool) (th d : ℝ)
    (hc : 0 ≤ 0.5 * th + d)
    (hfar : 0.5 * th + d < a.distance pos) :
    intersects_straight_trailsection ⟨a, g, th, a⟩ pos d = false := by
  have hpi := Real.pi_pos
  simp only [intersects_straight_trailsection]
  simp only [angle_self]
  simp only [remEuclid_of_nonneg_of_lt le_rfl (by linarith : (0:ℝ) < 2 * Real.pi)]
  simp only [show (0:ℝ) + Real.pi = Real.pi by ring]
  simp only [remEuclid_of_nonneg_of_lt hpi.le (by linarith : Real.pi < 2 * Real.pi)]
  simp only [show (0:ℝ) - Real.pi/2 = -(Real.pi/2) by ring]
  simp only [Real.cos_neg, Real.sin_neg, Real.cos_pi_div_two, Real.sin_pi_div_two]
  have hout : Pos2.distance a ⟨a.x + 0 * (0.5 * th + d), a.y + -1 * (0.5 * th + d)⟩ =
      0.5 * th + d := by
    unfold Pos2.distance
    rw [show (a.x + 0 * (0.5 * th + d) - a.x) ^ 2 +
        (a.y + -1 * (0.5 * th + d) - a.y) ^ 2 = (0.5 * th + d) ^ 2 by ring]
    exact Real.sqrt_sq hc
  rw [if_neg (by push_neg; exact ⟨not_lt.mp (not_lt.mpr hfar.le),
    not_lt.mp (not_lt.mpr hfar.le)⟩)]
  rw [if_pos (Or.inl (by rw [hout]; exact hfar))]

lemma ownTrailStep_degenerate_self (pos : Pos2) (pth : ℝ) (g : Bool) (th : ℝ)
    (h : 0 < 0.5 * pth + 0.5 * th) :
    ownTrailStep pos pth (.straight ⟨pos, g, th, pos⟩) = false := by
  simp only [ownTrailStep, TrailSection.end_pos, TrailSection.thickness, distance_self]
  rw [ite_self]
  rw [if_neg (by simp : ¬(false = true))]
  rw [if_neg (not_lt.mpr h.le)]

/-- A crash-free effect-free straight-moving player with an empty trail:
one movement step deposits a fresh zero-length straight section. -/
lemma movementStep_fresh (clock : Clock) (p : Player) (rng : Rng)
    (heff : p.effects = []) (hcr : p.crashed = false) (htr : p.trail = [])
    (hdir : p.local_direction = .straight) (hrdir : p.remote_direction = .straight)
    (hroll : ¬ rng.reals.headD 0 < clock.frame_delta * GAP_RATE) :
    movementStep clock p rng =
      some ({ p with trail := [.straight ⟨p.pos, false, p.thickness, p.pos⟩] },
            { rng with reals := rng.reals.tail }) := by
  unfold movementStep
  dsimp only [Rng.nextReal]
  rw [heff]
  rw [if_neg (by simp [hcr])]
  rw [if_pos ?hgap]
  case hgap =>
    constructor
    · simp [Player.gap]
    · simp [Player.no_gap]
  rw [if_neg (by simpa using hroll)]
  rw [show move_player clock { p with effects := List.filter (fun e => decide (e.start + e.duration > clock.now)) [] } = some (add_trail_section { p with effects := List.filter (fun e => decide (e.start + e.duration > clock.now)) [] }) from ?mv]
  case mv =>
    unfold move_player
    rw [if_pos (by simp [htr])]
  unfold add_trail_section
  rw [show ({ p with effects := List.filter (fun e => decide (e.start + e.duration > clock.now)) [] } : Player).direction = Direction.straight from ?pd]
  case pd =>
    unfold Player.direction
    simp only [hdir, hrdir]
  unfold Direction.turning_direction
  dsimp only
  simp only [Option.some.injEq, Prod.mk.injEq]
  refine ⟨?_, trivial⟩
  rw [htr]
  simp [Player.gap, Player.thickness, heff]

lemma intersects_trail_single_degenerate (a pos : Pos2) (g : Bool) (th d : ℝ)
    (hc : 0 ≤ 0.5 * th + d) (hfar : 0.5 * th + d < a.distance pos) :
    intersects_trail pos d [.straight ⟨a, g, th, a⟩] = false := by
  unfold intersects_trail
  cases g
  · rw [if_neg (by simp [TrailSection.gap])]
    dsimp only
    rw [intersects_degenerate_straight a pos false th d hc hfar]
    simp [intersects_trail]
  · rw [if_pos (by simp [TrailSection.gap])]
    simp [intersects_trail]

/-- Scenario: two fresh players, one sitting against the left wall. -/
def p0w : Player := { dummyPlayer with pos := ⟨1, 100⟩ }

def p1w : Player := { dummyPlayer with id := 1, name := "Q", color := .green }

def oracle0 : Rng := ⟨[1, 1, 1], []⟩

def clockA : Clock := ⟨0, 0 + UPDATE_TIME, UPDATE_TIME⟩

def crashWorld : World :=
  ⟨2, true, ⟨0, 0, 0⟩, .running 0, [], [], [p0w, p1w], []⟩

def sec0 : StraightTrailSection := ⟨⟨1, 100⟩, false, 4, ⟨1, 100⟩⟩

def sec1 : StraightTrailSection := ⟨⟨100, 100⟩, false, 4, ⟨100, 100⟩⟩

def p0m : Player := { p0w with trail := [.straight sec0] }

def p1m : Player := { p1w with trail := [.straight sec1] }

def p0c : Player := { p0m with just_crashed := true }

def feedA : List Crash := [⟨clockA.now, .wall "P" .orange⟩]

def stA : RunState := ⟨[p0m, p1m], [], [], [], ⟨[], []⟩⟩

def stB : RunState := ⟨[p0c, p1m], [], [], feedA, ⟨[], []⟩⟩

lemma evalA_spawn : spawnItems clockA [p0w, p1w] [] oracle0 = some ([], ⟨[1, 1], []⟩) := by
  unfold spawnItems
  dsimp only [Rng.nextReal, oracle0]
  rw [if_pos (by norm_num [MAX_ITEMS])]
  rw [if_neg (by norm_num [clockA, UPDATE_TIME, ITEM_SPAWN_RATE])]
  rfl

lemma evalB_move : movementPhase clockA [p0w, p1w] ⟨[1, 1], []⟩ =
    some ([p0m, p1m], ⟨[], []⟩) := by
  have h0 := movementStep_fresh clockA p0w ⟨[1, 1], []⟩ rfl rfl rfl rfl rfl
    (by norm_num [clockA, UPDATE_TIME, GAP_RATE])
  have h1 := movementStep_fresh clockA p1w ⟨[1], []⟩ rfl rfl rfl rfl rfl
    (by norm_num [clockA, UPDATE_TIME, GAP_RATE])
  simp only [movementPhase, h0]
  dsimp only [List.tail_cons]
  simp only [movementPhase, h1]
  dsimp only [List.tail_cons]
  simp [p0m, p1m, sec0, sec1,
    show p0w.pos = (⟨1, 100⟩ : Pos2) from rfl,
    show p1w.pos = (⟨100, 100⟩ : Pos2) from rfl,
    effects_nil_thickness (p := p0w) rfl,
    effects_nil_thickness (p := p1w) rfl]

lemma own_p0c : intersects_own_trail p0c = false := by
  unfold intersects_own_trail
  rw [show p0c.trail = [.straight ⟨⟨1, 100⟩, false, 4, ⟨1, 100⟩⟩] from rfl]
  simp only [List.any_cons, List.any_nil, Bool.or_false]
  rw [show p0c.pos = (⟨1, 100⟩ : Pos2) from rfl]
  rw [effects_nil_thickness (p := p0c) rfl]
  rw [ownTrailStep_degenerate_self ⟨1, 100⟩ 4 false 4 (by norm_num)]

lemma own_p1m : intersects_own_trail p1m = false := by
  unfold intersects_own_trail
  rw [show p1m.trail = [.straight ⟨⟨100, 100⟩, false, 4, ⟨100, 100⟩⟩] from rfl]
  simp only [List.any_cons, List.any_nil, Bool.or_false]
  rw [show p1m.pos = (⟨100, 100⟩ : Pos2) from rfl]
  rw [effects_nil_thickness (p := p1m) rfl]
  rw [ownTrailStep_degenerate_self ⟨100, 100⟩ 4 false 4 (by norm_num)]

lemma cross_p0 : intersects_trail p0c.pos (0.5 * p0c.thickness) p1m.trail = false := by
  rw [effects_nil_thickness (p := p0c) rfl]
  rw [show p0c.pos = (⟨1, 100⟩ : Pos2) from rfl]
  rw [show p1m.trail = [.straight ⟨⟨100, 100⟩, false, 4, ⟨100, 100⟩⟩] from rfl]
  refine intersects_trail_single_degenerate ⟨100, 100⟩ ⟨1, 100⟩ false 4 (0.5 * 4)
    (by norm_num) ?_
  rw [lt_distance_iff (by norm_num)]
  norm_num

lemma cross_p1 : intersects_trail p1m.pos (0.5 * p1m.thickness) p0c.trail = false := by
  rw [effects_nil_thickness (p := p1m) rfl]
  rw [show p1m.pos = (⟨100, 100⟩ : Pos2) from rfl]
  rw [show p0c.trail = [.straight ⟨⟨1, 100⟩, false, 4, ⟨1, 100⟩⟩] from rfl]
  refine intersects_trail_single_degenerate ⟨1, 100⟩ ⟨100, 100⟩ false 4 (0.5 * 4)
    (by norm_num) ?_
  rw [lt_distance_iff (by norm_num)]
  norm_num

lemma checkCrashes_p0 : checkCrashes clockA false stA 0 p0m = (p0c, feedA) := by
  unfold checkCrashes
  rw [show wallCheck clockA false stA.crash_feed p0m = (p0c, feedA) from ?wc]
  case wc =>
    unfold wallCheck
    rw [if_neg (by simp)]
    dsimp only
    rw [effects_nil_thickness (p := p0m) rfl]
    rw [if_pos (Or.inl (by rw [show p0m.pos.x = 1 from rfl]; norm_num))]
    rfl
  dsimp only
  rw [if_pos (by rw [effects_nil_gap (p := p0c) rfl]; simp)]
  simp only [own_p0c]
  rw [if_neg (by simp)]
  dsimp only
  rw [show (stA.players.enum.filter fun io => io.1 ≠ 0) = [(1, p1m)] from rfl]
  simp only [List.find?]
  rw [cross_p0]

lemma checkCrashes_p1 : checkCrashes clockA false stB 1 p1m = (p1m, feedA) := by
  unfold checkCrashes
  rw [show wallCheck clockA false stB.crash_feed p1m = (p1m, feedA) from ?wc]
  case wc =>
    unfold wallCheck
    rw [if_neg (by simp)]
    dsimp only
    rw [effects_nil_thickness (p := p1m) rfl]
    rw [if_neg ?far]
    case far =>
      push_neg
      rw [show p1m.pos.x = 100 from rfl, show p1m.pos.y = 100 from rfl]
      norm_num [WORLD_SIZE]
    rfl
  dsimp only
  rw [if_pos (by rw [effects_nil_gap (p := p1m) rfl]; simp)]
  simp only [own_p1m]
  rw [if_neg (by simp)]
  dsimp only
  rw [show (stB.players.enum.filter fun io => io.1 ≠ 1) = [(0, p0c)] from rfl]
  simp only [List.find?]
  rw [cross_p1]

lemma evalC0 : processPlayer clockA false stA 0 = stB := by
  unfold processPlayer
  rw [show stA.players.get? 0 = some p0m from rfl]
  dsimp only
  rw [if_neg (show ¬(p0m.crashed = true) by rw [show p0m.crashed = false from rfl]; simp)]
  rw [checkCrashes_p0]
  rfl

lemma evalC1 : processPlayer clockA false stB 1 = stB := by
  unfold processPlayer
  rw [show stB.players.get? 1 = some p1m from rfl]
  dsimp only
  rw [if_neg (show ¬(p1m.crashed = true) by rw [show p1m.crashed = false from rfl]; simp)]
  rw [checkCrashes_p1]
  rfl

def p0f : Player := { p0c with crashed := true }

def p1f : Player := { p1m with score := 1 }

def crashWorld' : World :=
  ⟨2, true, clockA, .stopped 0, [], [], [p0f, p1f], feedA⟩

lemma crashWorld_update : World.update oracle0 0 crashWorld = some crashWorld' := by
  unfold World.update
  rw [show crashWorld.state = GameState.running 0 from rfl]
  dsimp only
  rw [show crashWorld.clock.update 0 (GameState.running 0) = clockA from rfl]
  rw [show crashWorld.effects = ([] : List (Effect WorldEffect)) from rfl]
  simp only [List.filter_nil]
  rw [show crashWorld.players = [p0w, p1w] from rfl]
  rw [show crashWorld.items = ([] : List Item) from rfl]
  rw [show crashWorld.crash_feed = ([] : List Crash) from rfl]
  rw [evalA_spawn]
  dsimp only
  rw [evalB_move]
  dsimp only
  simp only [List.any_nil]
  rw [show List.range ([p0m, p1m].length) = [0, 1] from rfl]
  rw [show (RunState.mk [p0m, p1m] [] [] [] ⟨[], []⟩) = stA from rfl]
  simp only [List.foldl_cons, List.foldl_nil]
  rw [evalC0, evalC1]
  rw [show commitAndScore 0 stB.players = ([p0f, p1f], GameState.stopped 0) from rfl]
  rfl

/-- C5 (witness): a concrete two-player tick in which the wall-adjacent
player crashes; the survivor's score rises by one and the game stops. -/
theorem survivor_scoring_witness :
    crashWorld.state = .running 0 ∧
    World.update oracle0 0 crashWorld = some crashWorld' ∧
    ((crashWorld'.players.filter fun p => !p.crashed).length < 2 ∧
     crashWorld'.state = .stopped 0 ∧
     crashWorld'.players.length = crashWorld.players.length) := by
  have halive : (crashWorld'.players.filter fun p => !p.crashed).length < 2 := by
    rw [show (crashWorld'.players.filter fun p => !p.crashed) = [p1f] from rfl]
    norm_num
  have hinv : ∀ p ∈ crashWorld.players, p.crashed = true → p.just_crashed = true := by
    intro p hp hc
    rw [show crashWorld.players = [p0w, p1w] from rfl] at hp
    simp only [List.mem_cons, List.not_mem_nil, or_false] at hp
    rcases hp with rfl | rfl
    · exact absurd hc (by decide)
    · exact absurd hc (by decide)
  have h := survivor_scoring oracle0 0 crashWorld 0 crashWorld' rfl hinv
    crashWorld_update halive
  exact ⟨rfl, crashWorld_update, halive, h.1, h.2.1⟩

/-- Trail contiguity: each section starts where the previous one ended. -/
def Contiguous (trail : List TrailSection) : Prop :=
  trail.Chain' fun a b => a.end_pos = b.start_pos

/-- The movement invariant: a contiguous trail whose last section ends at the
player's current position. -/
def PlayerInv (p : Player) : Prop :=
  Contiguous p.trail ∧ ∀ s, p.trail.getLast? = some s → s.end_pos = p.pos

lemma PlayerInv_nil {p : Player} (h : p.trail = []) : PlayerInv p := by
  constructor
  · unfold Contiguous
    rw [h]
    exact List.chain'_nil
  · intro s hs
    rw [h] at hs
    simp at hs

lemma PlayerInv_congr {p q : Player} (ht : q.trail = p.trail) (hp : q.pos = p.pos)
    (h : PlayerInv p) : PlayerInv q := by
  constructor
  · unfold Contiguous
    rw [ht]
    exact h.1
  · intro s hs
    rw [ht] at hs
    rw [hp]
    exact h.2 s hs

lemma mem_set_cases {α : Type} {l : List α} {n : ℕ} {v q : α}
    (hq : q ∈ l.set n v) : q ∈ l ∨ q = v := by
  rw [List.mem_iff_get?] at hq
  obtain ⟨i, hi⟩ := hq
  by_cases h : n = i
  · subst h
    rcases Nat.lt_or_ge n l.length with hlt | hge
    · rw [List.get?_set_eq_of_lt _ hlt] at hi
      exact Or.inr (Option.some_inj.mp hi).symm
    · rw [List.get?_eq_none.mpr (by simpa using hge)] at hi
      cases hi
  · rw [List.get?_set_ne _ _ h] at hi
    exact Or.inl (List.get?_mem hi)

lemma add_trail_section_inv {p : Player} (h : PlayerInv p) :
    PlayerInv (add_trail_section p) := by
  obtain ⟨hchain, hlink⟩ := h
  unfold add_trail_section
  rcases hd : p.direction.turning_direction with _ | dir <;> dsimp only <;> constructor
  · refine List.Chain'.append hchain (List.chain'_singleton _) ?_
    intro x hx y hy
    simp only [List.head?_cons, Option.mem_def, Option.some_inj] at hy
    subst hy
    exact hlink x (Option.mem_def.mp hx)
  · intro s hs
    rw [List.getLast?_concat] at hs
    rw [Option.some_inj] at hs
    subst hs
    rfl
  · refine List.Chain'.append hchain (List.chain'_singleton _) ?_
    intro x hx y hy
    simp only [List.head?_cons, Option.mem_def, Option.some_inj] at hy
    subst hy
    exact hlink x (Option.mem_def.mp hx)
  · intro s hs
    rw [List.getLast?_concat] at hs
    rw [Option.some_inj] at hs
    subst hs
    rfl

lemma update_trail_section_inv {clock : Clock} {p p' : Player} (h : PlayerInv p)
    (hupd : update_trail_section clock p = some p') : PlayerInv p' := by
  obtain ⟨hchain, hlink⟩ := h
  unfold update_trail_section at hupd
  rcases hL : p.trail.getLast? with _ | t
  · rw [hL] at hupd
    cases hupd
  rcases t with s | s
  all_goals rw [hL] at hupd
  all_goals dsimp only at hupd
  all_goals rw [Option.some_inj] at hupd
  all_goals subst hupd
  all_goals have hdecomp := List.dropLast_append_getLast? _ (Option.mem_def.mpr hL)
  all_goals rw [← hdecomp] at hchain
  all_goals obtain ⟨hd, _, hrel⟩ := List.chain'_append.mp hchain
  all_goals constructor
  · refine List.Chain'.append hd (List.chain'_singleton _) ?_
    intro x hx y hy
    simp only [List.head?_cons, Option.mem_def, Option.some_inj] at hy
    subst hy
    have hx' := hrel x hx (TrailSection.straight s) (by simp)
    simpa [TrailSection.start_pos] using hx'
  · intro s' hs'
    rw [List.getLast?_concat, Option.some_inj] at hs'
    subst hs'
    rfl
  · refine List.Chain'.append hd (List.chain'_singleton _) ?_
    intro x hx y hy
    simp only [List.head?_cons, Option.mem_def, Option.some_inj] at hy
    subst hy
    have hx' := hrel x hx (TrailSection.arc s) (by simp)
    simpa [TrailSection.start_pos] using hx'
  · intro s' hs'
    rw [List.getLast?_concat, Option.some_inj] at hs'
    subst hs'
    rfl

lemma move_player_inv {clock : Clock} {p p' : Player} (h : PlayerInv p)
    (hm : move_player clock p = some p') : PlayerInv p' := by
  unfold move_player at hm
  split_ifs at hm with hemp
  · rw [Option.some_inj] at hm
    subst hm
    exact add_trail_section_inv h
  · rcases hL : p.trail.getLast? with _ | t
    · rw [hL] at hm
      cases hm
    · rw [hL] at hm
      dsimp only at hm
      refine update_trail_section_inv ?_ hm
      split_ifs with hcond
      · exact add_trail_section_inv h
      · rcases t with s | s
        · exact h
        · dsimp only
          split_ifs with hr
          · exact add_trail_section_inv h
          · exact h

lemma movementStep_inv {clock : Clock} {p p' : Player} {rng rng' : Rng}
    (h : PlayerInv p) (hm : movementStep clock p rng = some (p', rng')) :
    PlayerInv p' := by
  unfold movementStep at hm
  dsimp only [Rng.nextReal, Rng.nextNat] at hm
  split_ifs at hm with h1 h2 h3
  · rw [Option.some_inj, Prod.mk.injEq] at hm
    obtain ⟨hp', _⟩ := hm
    subst hp'
    exact PlayerInv_congr rfl rfl h
  · split at hm
    · cases hm
    · rename_i pm heq
      rw [Option.some_inj, Prod.mk.injEq] at hm
      obtain ⟨hp', _⟩ := hm
      subst hp'
      refine move_player_inv ?_ heq
      exact PlayerInv_congr rfl rfl h
  · split at hm
    · cases hm
    · rename_i pm heq
      rw [Option.some_inj, Prod.mk.injEq] at hm
      obtain ⟨hp', _⟩ := hm
      subst hp'
      refine move_player_inv ?_ heq
      exact PlayerInv_congr rfl rfl h
  · split at hm
    · cases hm
    · rename_i pm heq
      rw [Option.some_inj, Prod.mk.injEq] at hm
      obtain ⟨hp', _⟩ := hm
      subst hp'
      refine move_player_inv ?_ heq
      exact PlayerInv_congr rfl rfl h

lemma movementPhase_inv (clock : Clock) :
    ∀ (ps : List Player) (rng : Rng) (ps' : List Player) (rng' : Rng),
      movementPhase clock ps rng = some (ps', rng') →
      (∀ p ∈ ps, PlayerInv p) → ∀ q ∈ ps', PlayerInv q
  | [], rng, ps', rng', h, hinv => by
    simp only [movementPhase, Option.some_inj, Prod.mk.injEq] at h
    obtain ⟨hps, _⟩ := h
    subst hps
    intro q hq
    simp at hq
  | p :: ps, rng, ps', rng', h, hinv => by
    simp only [movementPhase] at h
    split at h
    · cases h
    · rename_i p1 rng1 heq
      split at h
      · cases h
      · rename_i ps1 rng2 heqs
        rw [Option.some_inj, Prod.mk.injEq] at h
        obtain ⟨hps, _⟩ := h
        subst hps
        intro q hq
        rcases List.mem_cons.mp hq with rfl | hq'
        · exact movementStep_inv (hinv p (List.mem_cons_self p ps)) heq
        · exact movementPhase_inv clock ps rng1 ps1 rng2 heqs
            (fun r hr => hinv r (List.mem_cons_of_mem p hr)) q hq'

lemma checkCrashes_trail_pos (clock : Clock) (st : RunState) (pi : ℕ)
    (p0 : Player) :
    (checkCrashes clock false st pi p0).1.trail = p0.trail ∧
    (checkCrashes clock false st pi p0).1.pos = p0.pos := by
  unfold checkCrashes wallCheck
  rw [if_neg (by simp)]
  dsimp only
  split_ifs <;> first
    | exact ⟨rfl, rfl⟩
    | (split <;> exact ⟨rfl, rfl⟩)

lemma processPlayer_inv {clock : Clock} {st : RunState} {pi : ℕ}
    (hinv : ∀ p ∈ st.players, PlayerInv p) :
    ∀ q ∈ (processPlayer clock false st pi).players, PlayerInv q := by
  intro q hq
  unfold processPlayer at hq
  rcases hget : st.players.get? pi with _ | p0
  · rw [hget] at hq
    exact hinv q hq
  · rw [hget] at hq
    dsimp only at hq
    by_cases hc : p0.crashed = true
    · rw [if_pos hc] at hq
      exact hinv q hq
    · rw [if_neg hc] at hq
      rcases hCC : checkCrashes clock false st pi p0 with ⟨p2, feed2⟩
      rw [hCC] at hq
      dsimp only at hq
      rcases hCI : collectItems clock p2 st.items st.effects st.rng false with
        ⟨p3, items2, weff2, rng2, clear⟩
      rw [hCI] at hq
      dsimp only at hq
      have hp0 : PlayerInv p0 := hinv p0 (List.get?_mem hget)
      have hp2 : PlayerInv p2 := by
        have htp := checkCrashes_trail_pos clock st pi p0
        rw [hCC] at htp
        exact PlayerInv_congr htp.1 htp.2 hp0
      have hp3 : PlayerInv p3 := by
        have hfr := collectItems_player_frame clock st.items p2 st.effects st.rng false
        rw [hCI] at hfr
        dsimp only at hfr
        exact PlayerInv_congr (congrArg Player.trail hfr) (congrArg Player.pos hfr) hp2
      simp only [List.set_set] at hq
      by_cases hcl : clear = true
      · rw [if_pos hcl] at hq
        simp only [List.mem_map] at hq
        obtain ⟨r, _, rfl⟩ := hq
        exact PlayerInv_nil rfl
      · rw [if_neg hcl] at hq
        rcases mem_set_cases hq with hmem | rfl
        · exact hinv q hmem
        · exact hp3

lemma processLoop_inv (clock : Clock) :
    ∀ (l : List ℕ) (st : RunState), (∀ p ∈ st.players, PlayerInv p) →
      ∀ q ∈ (l.foldl (processPlayer clock false) st).players, PlayerInv q
  | [], _, hinv => hinv
  | i :: l, st, hinv => by
    simp only [List.foldl_cons]
    exact processLoop_inv clock l _ (processPlayer_inv hinv)

lemma commitPlayer_inv {p : Player} (h : PlayerInv p) : PlayerInv (commitPlayer p) := by
  unfold commitPlayer
  split_ifs <;> exact PlayerInv_congr rfl rfl h

lemma scorePlayer_inv {p : Player} (h : PlayerInv p) : PlayerInv (scorePlayer p) := by
  unfold scorePlayer
  split_ifs <;> exact PlayerInv_congr rfl rfl h

lemma commitAndScore_inv {t : ℝ} {ps : List Player}
    (hinv : ∀ p ∈ ps, PlayerInv p) :
    ∀ q ∈ (commitAndScore t ps).1, PlayerInv q := by
  intro q hq
  unfold commitAndScore at hq
  dsimp only at hq
  split_ifs at hq
  · simp only [List.mem_map] at hq
    obtain ⟨r, ⟨r0, hr0, rfl⟩, rfl⟩ := hq
    exact scorePlayer_inv (commitPlayer_inv (hinv r0 hr0))
  · simp only [List.mem_map] at hq
    obtain ⟨r0, hr0, rfl⟩ := hq
    exact commitPlayer_inv (hinv r0 hr0)

/-- C6: trail sections stay contiguous (`section[i].end_pos =
section[i+1].start_pos`, with the last section ending at the player's
position): absent an active wall-teleport effect, `World::update` preserves
the invariant for every player — a trail clear resets to the empty,
trivially contiguous trail — and a newly appended section always starts
exactly where the trail previously ended, namely at the player's position. -/
theorem trail_contiguity_preserved :
    (∀ (rng : Rng) (realNow : ℝ) (w w' : World),
      (∀ e ∈ w.effects, e.kind ≠ WorldEffect.wallTeleporting) →
      (∀ p ∈ w.players, PlayerInv p) →
      w.update rng realNow = some w' →
      ∀ q ∈ w'.players, PlayerInv q) ∧
    (∀ p : Player, ∃ tl : TrailSection,
      (add_trail_section p).trail = p.trail ++ [tl] ∧ tl.start_pos = p.pos) := by
  constructor
  · intro rng realNow w w' hwt hinv hupd
    unfold World.update at hupd
    rcases hst : w.state with t | t | t | t
    all_goals rw [hst] at hupd
    all_goals dsimp only at hupd
    · rw [Option.some_inj] at hupd
      subst hupd
      intro q hq
      dsimp only at hq
      simp only [List.mem_map] at hq
      obtain ⟨r, hr, rfl⟩ := hq
      rcases hd : r.direction.turning_direction with _ | d <;> simp only [hd]
      · exact hinv r hr
      · exact PlayerInv_congr rfl rfl (hinv r hr)
    · obtain ⟨items1, rng1, hsp⟩ :=
        spawnItems_total (w.clock.update realNow (.running t)) w.players w.items rng
      rw [hsp] at hupd
      dsimp only at hupd
      rcases hmv : movementPhase (w.clock.update realNow (.running t)) w.players rng1 with
        _ | pr
      · rw [hmv] at hupd
        cases hupd
      · rcases pr with ⟨ps1, rng2⟩
        rw [hmv] at hupd
        dsimp only at hupd
        rw [Option.some_inj] at hupd
        subst hupd
        intro q hq
        dsimp only at hq
        have hWT : (List.filter
            (fun e => decide (e.start + e.duration >
              (w.clock.update realNow (GameState.running t)).now)) w.effects).any
            (fun e => decide (e.kind = WorldEffect.wallTeleporting)) = false := by
          refine Bool.eq_false_iff.mpr fun hany => ?_
          rw [List.any_eq_true] at hany
          obtain ⟨e, he, hk⟩ := hany
          exact hwt e (List.mem_of_mem_filter he) (of_decide_eq_true hk)
        rw [hWT] at hq
        refine commitAndScore_inv ?_ q hq
        exact processLoop_inv _ _ _
          (movementPhase_inv _ w.players rng1 ps1 rng2 hmv hinv)
    · rw [Option.some_inj] at hupd
      subst hupd
      exact hinv
    · rw [Option.some_inj] at hupd
      subst hupd
      exact hinv
  · intro p
    unfold add_trail_section
    rcases hd : p.direction.turning_direction with _ | dir <;> dsimp only
    · exact ⟨_, rfl, rfl⟩
    · exact ⟨_, rfl, rfl⟩

/-- The spec's deferred-clear reading of one scan iteration: identical to
`processPlayer` except that the `Clear` flag is accumulated in the `Bool`
component instead of being applied to the trails. -/
def processPlayerDeferred (clock : Clock) (wall_teleporting : Bool)
    (acc : RunState × Bool) (pi : ℕ) : RunState × Bool :=
  match acc.1.players.get? pi with
  | none => acc
  | some p0 =>
    if p0.crashed then acc
    else
      let (p2, feed2) := checkCrashes clock wall_teleporting acc.1 pi p0
      let players2 := acc.1.players.set pi p2
      let (p3, items2, weffects2, rng2, clear) :=
        collectItems clock p2 acc.1.items acc.1.effects acc.1.rng false
      let players3 := players2.set pi p3
      (⟨players3, items2, weffects2, feed2, rng2⟩, acc.2 || clear)

/-- The spec's reading of the whole crash/item scan: the trail clear is
applied exactly once, after the per-player loop has completed. -/
def runningScanDeferred (clock : Clock) (wall_teleporting : Bool)
    (st : RunState) : RunState :=
  let acc := (List.range st.players.length).foldl
    (processPlayerDeferred clock wall_teleporting) (st, false)
  if acc.2 then
    { acc.1 with players := acc.1.players.map fun q => { q with trail := [] } }
  else acc.1

/-- `World::update` as the spec describes it: the `Running` branch applies
the trail clear only after the full per-player scan; every other branch
agrees with `World.update`. -/
def World.update_deferred (rng : Rng) (realNow : ℝ) (w : World) : Option World :=
  let clock := w.clock.update realNow w.state
  match w.state with
  | .starting start_time =>
    let players := w.players.map fun p =>
      match p.direction.turning_direction with
      | none => p
      | some dir =>
        { p with angle := p.angle +
            clock.frame_delta * BASE_SPEED / BASE_TURNING_RADIUS * dir.angle_sign }
    let state :=
      if clock.now > start_time + START_DELAY then GameState.running clock.now
      else w.state
    some { w with clock := clock, players := players, state := state }
  | .running start_time =>
    let weffects := w.effects.filter fun e => e.start + e.duration > clock.now
    match spawnItems clock w.players w.items rng with
    | none => none
    | some (items, rng) =>
      match movementPhase clock w.players rng with
      | none => none
      | some (players, rng) =>
        let wall_teleporting := weffects.any fun e => e.kind = WorldEffect.wallTeleporting
        let st := runningScanDeferred clock wall_teleporting
          ⟨players, items, weffects, w.crash_feed, rng⟩
        let (players, state) := commitAndScore start_time st.players
        some { w with
                clock := clock, state := state, items := st.items,
                effects := st.effects, players := players,
                crash_feed := st.crash_feed }
  | .paused _ => some { w with clock := clock }
  | .stopped _ => some { w with clock := clock }

lemma intersects_straight_near_start (s : StraightTrailSection) (pos : Pos2)
    (d : ℝ) (h : s.start.distance pos < 0.5 * s.thickness + d) :
    intersects_straight_trailsection s pos d = true := by
  unfold intersects_straight_trailsection
  dsimp only
  rw [if_pos (Or.inl h)]

/-- Scenario: a wall-distant player on top of a `Clear` item, with a second
player standing two units away. -/
def pA : Player := { dummyPlayer with pos := ⟨200, 100⟩ }

def pB : Player :=
  { dummyPlayer with id := 1, name := "Q", color := .green, pos := ⟨202, 100⟩ }

def clearItem : Item := ⟨⟨200, 100⟩, .clear⟩

def oracle2 : Rng := ⟨[1, 1, 1], []⟩

def clearWorld : World :=
  ⟨2, true, ⟨0, 0, 0⟩, .running 0, [clearItem], [], [pA, pB], []⟩

def pA1 : Player := { pA with trail := [.straight ⟨⟨200, 100⟩, false, 4, ⟨200, 100⟩⟩] }

def pB1 : Player := { pB with trail := [.straight ⟨⟨202, 100⟩, false, 4, ⟨202, 100⟩⟩] }

def pA2 : Player := { pA1 with just_crashed := true }

def pA3 : Player := { pA2 with trail := [] }

def pB2 : Player := { pB1 with trail := [] }

def pA4 : Player := { pA3 with crashed := true }

def pB3 : Player := { pB2 with score := 1 }

def pB4 : Player := { pB1 with just_crashed := true }

def pB4c : Player := { pB4 with trail := [] }

def pB5 : Player := { pB4c with crashed := true }

def feedB : List Crash := [⟨clockA.now, .other "P" .orange "Q" .green⟩]

def feedC : List Crash :=
  [⟨clockA.now, .other "P" .orange "Q" .green⟩,
   ⟨clockA.now, .other "Q" .green "P" .orange⟩]

def st2 : RunState := ⟨[pA1, pB1], [clearItem], [], [], ⟨[], []⟩⟩

def st3 : RunState := ⟨[pA3, pB2], [], [], feedB, ⟨[], []⟩⟩

def st2d : RunState := ⟨[pA2, pB1], [], [], feedB, ⟨[], []⟩⟩

def st2e : RunState := ⟨[pA2, pB4], [], [], feedC, ⟨[], []⟩⟩

def clearWorldActual : World :=
  ⟨2, true, clockA, .stopped 0, [], [], [pA4, pB3], feedB⟩

def clearWorldDeferred : World :=
  ⟨2, true, clockA, .stopped 0, [], [], [pA4, pB5], feedC⟩

lemma evalA2_spawn : spawnItems clockA [pA, pB] [clearItem] oracle2 =
    some ([clearItem], ⟨[1, 1], []⟩) := by
  unfold spawnItems
  dsimp only [Rng.nextReal, oracle2]
  rw [if_pos (by norm_num [MAX_ITEMS])]
  rw [if_neg (by norm_num [clockA, UPDATE_TIME, ITEM_SPAWN_RATE])]
  rfl

lemma evalB2_move : movementPhase clockA [pA, pB] ⟨[1, 1], []⟩ =
    some ([pA1, pB1], ⟨[], []⟩) := by
  have h0 := movementStep_fresh clockA pA ⟨[1, 1], []⟩ rfl rfl rfl rfl rfl
    (by norm_num [clockA, UPDATE_TIME, GAP_RATE])
  have h1 := movementStep_fresh clockA pB ⟨[1], []⟩ rfl rfl rfl rfl rfl
    (by norm_num [clockA, UPDATE_TIME, GAP_RATE])
  simp only [movementPhase, h0]
  dsimp only [List.tail_cons]
  simp only [movementPhase, h1]
  dsimp only [List.tail_cons]
  simp [pA1, pB1,
    show pA.pos = (⟨200, 100⟩ : Pos2) from rfl,
    show pB.pos = (⟨202, 100⟩ : Pos2) from rfl,
    effects_nil_thickness (p := pA) rfl,
    effects_nil_thickness (p := pB) rfl]

lemma own_pA1 : intersects_own_trail pA1 = false := by
  unfold intersects_own_trail
  rw [show pA1.trail = [.straight ⟨⟨200, 100⟩, false, 4, ⟨200, 100⟩⟩] from rfl]
  simp only [List.any_cons, List.any_nil, Bool.or_false]
  rw [show pA1.pos = (⟨200, 100⟩ : Pos2) from rfl]
  rw [effects_nil_thickness (p := pA1) rfl]
  rw [ownTrailStep_degenerate_self ⟨200, 100⟩ 4 false 4 (by norm_num)]

lemma own_pB1 : intersects_own_trail pB1 = false := by
  unfold intersects_own_trail
  rw [show pB1.trail = [.straight ⟨⟨202, 100⟩, false, 4, ⟨202, 100⟩⟩] from rfl]
  simp only [List.any_cons, List.any_nil, Bool.or_false]
  rw [show pB1.pos = (⟨202, 100⟩ : Pos2) from rfl]
  rw [effects_nil_thickness (p := pB1) rfl]
  rw [ownTrailStep_degenerate_self ⟨202, 100⟩ 4 false 4 (by norm_num)]

lemma cross_pA : intersects_trail pA1.pos (0.5 * pA1.thickness) pB1.trail = true := by
  rw [effects_nil_thickness (p := pA1) rfl]
  rw [show pA1.pos = (⟨200, 100⟩ : Pos2) from rfl]
  rw [show pB1.trail = [.straight ⟨⟨202, 100⟩, false, 4, ⟨202, 100⟩⟩] from rfl]
  unfold intersects_trail
  rw [if_neg (by simp [TrailSection.gap])]
  dsimp only
  rw [intersects_straight_near_start _ _ _ ?near]
  case near =>
    dsimp only
    rw [distance_lt_iff (by norm_num)]
    norm_num
  simp

lemma cross_pBd : intersects_trail pB1.pos (0.5 * pB1.thickness) pA2.trail = true := by
  rw [effects_nil_thickness (p := pB1) rfl]
  rw [show pB1.pos = (⟨202, 100⟩ : Pos2) from rfl]
  rw [show pA2.trail = [.straight ⟨⟨200, 100⟩, false, 4, ⟨200, 100⟩⟩] from rfl]
  unfold intersects_trail
  rw [if_neg (by simp [TrailSection.gap])]
  dsimp only
  rw [intersects_straight_near_start _ _ _ ?near]
  case near =>
    dsimp only
    rw [distance_lt_iff (by norm_num)]
    norm_num
  simp

lemma wallCheck_pA1 : wallCheck clockA false ([] : List Crash) pA1 = (pA1, []) := by
  unfold wallCheck
  rw [if_neg (by simp)]
  dsimp only
  rw [effects_nil_thickness (p := pA1) rfl]
  rw [if_neg ?far]
  case far =>
    push_neg
    rw [show pA1.pos.x = 200 from rfl, show pA1.pos.y = 100 from rfl]
    norm_num [WORLD_SIZE]

lemma checkCrashes_pA : checkCrashes clockA false st2 0 pA1 = (pA2, feedB) := by
  unfold checkCrashes
  rw [show st2.crash_feed = ([] : List Crash) from rfl]
  rw [wallCheck_pA1]
  dsimp only
  rw [if_pos (by rw [effects_nil_gap (p := pA1) rfl]; simp)]
  simp only [own_pA1]
  rw [if_neg (by simp)]
  dsimp only
  rw [show (st2.players.enum.filter fun io => io.1 ≠ 0) = [(1, pB1)] from rfl]
  simp only [List.find?]
  rw [cross_pA]
  rfl

lemma evalClear : collectItems clockA pA2 [clearItem] [] ⟨[], []⟩ false =
    (pA2, [], [], ⟨[], []⟩, true) := by
  unfold collectItems
  dsimp only
  rw [effects_nil_thickness (p := pA2) rfl]
  rw [if_pos ?hit]
  case hit =>
    unfold intersects
    simp only [decide_eq_true_eq]
    rw [show pA2.pos = (⟨200, 100⟩ : Pos2) from rfl,
        show clearItem.pos = (⟨200, 100⟩ : Pos2) from rfl]
    rw [distance_self]
    norm_num [ITEM_RADIUS]
  rw [show clearItem.kind = ItemKind.clear from rfl]
  rfl

lemma evalD0 : processPlayer clockA false st2 0 = st3 := by
  unfold processPlayer
  rw [show st2.players.get? 0 = some pA1 from rfl]
  dsimp only
  rw [if_neg (show ¬(pA1.crashed = true) by rw [show pA1.crashed = false from rfl]; simp)]
  rw [checkCrashes_pA]
  dsimp only
  rw [show st2.items = [clearItem] from rfl,
      show st2.effects = ([] : List (Effect WorldEffect)) from rfl,
      show st2.rng = (⟨[], []⟩ : Rng) from rfl]
  rw [evalClear]
  rfl

lemma wallCheck_pB2 : wallCheck clockA false st3.crash_feed pB2 = (pB2, feedB) := by
  unfold wallCheck
  rw [if_neg (by simp)]
  dsimp only
  rw [effects_nil_thickness (p := pB2) rfl]
  rw [if_neg ?far]
  case far =>
    push_neg
    rw [show pB2.pos.x = 202 from rfl, show pB2.pos.y = 100 from rfl]
    norm_num [WORLD_SIZE]
  rfl

lemma checkCrashes_pB2 : checkCrashes clockA false st3 1 pB2 = (pB2, feedB) := by
  unfold checkCrashes
  rw [wallCheck_pB2]
  dsimp only
  have hgap : ¬(pB2.gap = true) := by
    rw [effects_nil_gap (p := pB2) rfl]
    simp
  rw [if_pos hgap]
  rw [show intersects_own_trail pB2 = false from rfl]
  rw [if_neg (by simp)]
  dsimp only
  rw [show (st3.players.enum.filter fun io => io.1 ≠ 1) = [(0, pA3)] from rfl]
  simp only [List.find?]
  rw [show intersects_trail pB2.pos (0.5 * pB2.thickness) (0, pA3).2.trail = false from rfl]

lemma evalD1 : processPlayer clockA false st3 1 = st3 := by
  unfold processPlayer
  rw [show st3.players.get? 1 = some pB2 from rfl]
  dsimp only
  rw [if_neg (show ¬(pB2.crashed = true) by rw [show pB2.crashed = false from rfl]; simp)]
  rw [checkCrashes_pB2]
  rfl

lemma clearWorld_update : World.update oracle2 0 clearWorld = some clearWorldActual := by
  unfold World.update
  rw [show clearWorld.state = GameState.running 0 from rfl]
  dsimp only
  rw [show clearWorld.clock.update 0 (GameState.running 0) = clockA from rfl]
  rw [show clearWorld.effects = ([] : List (Effect WorldEffect)) from rfl]
  simp only [List.filter_nil]
  rw [show clearWorld.players = [pA, pB] from rfl]
  rw [show clearWorld.items = [clearItem] from rfl]
  rw [show clearWorld.crash_feed = ([] : List Crash) from rfl]
  rw [evalA2_spawn]
  dsimp only
  rw [evalB2_move]
  dsimp only
  simp only [List.any_nil]
  rw [show List.range ([pA1, pB1].length) = [0, 1] from rfl]
  rw [show (RunState.mk [pA1, pB1] [clearItem] [] [] ⟨[], []⟩) = st2 from rfl]
  simp only [List.foldl_cons, List.foldl_nil]
  rw [evalD0, evalD1]
  rw [show commitAndScore 0 st3.players = ([pA4, pB3], GameState.stopped 0) from rfl]
  rfl

lemma evalE0 : processPlayerDeferred clockA false (st2, false) 0 = (st2d, true) := by
  unfold processPlayerDeferred
  rw [show (st2, false).1.players.get? 0 = some pA1 from rfl]
  dsimp only
  rw [if_neg (show ¬(pA1.crashed = true) by rw [show pA1.crashed = false from rfl]; simp)]
  rw [checkCrashes_pA]
  dsimp only
  rw [show st2.items = [clearItem] from rfl,
      show st2.effects = ([] : List (Effect WorldEffect)) from rfl,
      show st2.rng = (⟨[], []⟩ : Rng) from rfl]
  rw [evalClear]
  rfl

lemma wallCheck_pB1d : wallCheck clockA false st2d.crash_feed pB1 = (pB1, feedB) := by
  unfold wallCheck
  rw [if_neg (by simp)]
  dsimp only
  rw [effects_nil_thickness (p := pB1) rfl]
  rw [if_neg ?far]
  case far =>
    push_neg
    rw [show pB1.pos.x = 202 from rfl, show pB1.pos.y = 100 from rfl]
    norm_num [WORLD_SIZE]
  rfl

lemma checkCrashes_pB1d : checkCrashes clockA false st2d 1 pB1 = (pB4, feedC) := by
  unfold checkCrashes
  rw [wallCheck_pB1d]
  dsimp only
  have hgap : ¬(pB1.gap = true) := by
    rw [effects_nil_gap (p := pB1) rfl]
    simp
  rw [if_pos hgap]
  simp only [own_pB1]
  rw [if_neg (by simp)]
  dsimp only
  rw [show (st2d.players.enum.filter fun io => io.1 ≠ 1) = [(0, pA2)] from rfl]
  simp only [List.find?]
  rw [cross_pBd]
  rfl

lemma evalE1 : processPlayerDeferred clockA false (st2d, true) 1 = (st2e, true) := by
  unfold processPlayerDeferred
  rw [show (st2d, true).1.players.get? 1 = some pB1 from rfl]
  dsimp only
  rw [if_neg (show ¬(pB1.crashed = true) by rw [show pB1.crashed = false from rfl]; simp)]
  rw [checkCrashes_pB1d]
  rfl

lemma clearWorld_update_deferred :
    World.update_deferred oracle2 0 clearWorld = some clearWorldDeferred := by
  unfold World.update_deferred
  rw [show clearWorld.state = GameState.running 0 from rfl]
  dsimp only
  rw [show clearWorld.clock.update 0 (GameState.running 0) = clockA from rfl]
  rw [show clearWorld.effects = ([] : List (Effect WorldEffect)) from rfl]
  simp only [List.filter_nil]
  rw [show clearWorld.players = [pA, pB] from rfl]
  rw [show clearWorld.items = [clearItem] from rfl]
  rw [show clearWorld.crash_feed = ([] : List Crash) from rfl]
  rw [evalA2_spawn]
  dsimp only
  rw [evalB2_move]
  dsimp only
  simp only [List.any_nil]
  unfold runningScanDeferred
  dsimp only
  rw [show List.range ((RunState.mk [pA1, pB1] [clearItem] [] [] ⟨[], []⟩).players.length) =
      [0, 1] from rfl]
  rw [show (RunState.mk [pA1, pB1] [clearItem] [] [] ⟨[], []⟩) = st2 from rfl]
  simp only [List.foldl_cons, List.foldl_nil]
  rw [evalE0, evalE1]
  dsimp only
  rw [if_pos rfl]
  rw [show commitAndScore 0 ((st2e.players.map fun q => { q with trail := [] })) =
      ([pA4, pB5], GameState.stopped 0) from rfl]
  rfl

/-- C7 (counterexample): in a tick where the first player picks up a `Clear`
item, the real update (clear applied mid-scan) lets the second player
survive, while the spec's deferred-clear reading crashes it on the first
player's not-yet-cleared trail: the clear is applied mid-scan and later
players' collision checks are affected. -/
theorem clear_applied_mid_scan :
    World.update oracle2 0 clearWorld = some clearWorldActual ∧
    World.update_deferred oracle2 0 clearWorld = some clearWorldDeferred ∧
    clearWorldActual.players.map Player.crashed = [true, false] ∧
    clearWorldDeferred.players.map Player.crashed = [true, true] ∧
    clearWorldActual.players.map Player.score = [0, 1] ∧
    clearWorldDeferred.players.map Player.score = [0, 0] :=
  ⟨clearWorld_update, clearWorld_update_deferred, rfl, rfl, rfl, rfl⟩

/-- C7 (amended): when the player at index `pi` picks up a `Clear` item, the
trail clear is applied immediately, inside that player's own loop iteration:
every player's trail is empty already in the state handed to the next
iteration of the scan, not only after the scan completes. -/
theorem clear_trails_applied_mid_loop (clock : Clock) (wt : Bool)
    (st : RunState) (pi : ℕ) (p0 : Player)
    (hget : st.players.get? pi = some p0)
    (hcr : p0.crashed = false)
    (hclear : (collectItems clock (checkCrashes clock wt st pi p0).1 st.items
        st.effects st.rng false).2.2.2.2 = true) :
    ((processPlayer clock wt st pi).players.all fun q => q.trail.isEmpty) = true := by
  unfold processPlayer
  rw [hget]
  dsimp only
  rw [if_neg (by simp [hcr])]
  rcases hCC : checkCrashes clock wt st pi p0 with ⟨p2, feed2⟩
  rw [hCC] at hclear
  dsimp only at hclear ⊢
  rcases hCI : collectItems clock p2 st.items st.effects st.rng false with
    ⟨p3, items2, weff2, rng2, clear⟩
  rw [hCI] at hclear
  dsimp only at hclear ⊢
  subst hclear
  rw [if_pos rfl]
  simp only [List.all_eq_true, List.mem_map]
  rintro q ⟨r, _, rfl⟩
  rfl

/-- C7 (amended, witness): in the concrete `Clear`-pickup scenario the state
produced by the picking player's own iteration already has every trail
empty. -/
theorem clear_trails_applied_mid_loop_witness :
    st2.players.get? 0 = some pA1 ∧ pA1.crashed = false ∧
    (collectItems clockA (checkCrashes clockA false st2 0 pA1).1 st2.items
        st2.effects st2.rng false).2.2.2.2 = true ∧
    ((processPlayer clockA false st2 0).players.all fun q => q.trail.isEmpty) = true := by
  have hc : (collectItems clockA (checkCrashes clockA false st2 0 pA1).1 st2.items
      st2.effects st2.rng false).2.2.2.2 = true := by
    rw [checkCrashes_pA]
    dsimp only
    rw [show st2.items = [clearItem] from rfl,
        show st2.effects = ([] : List (Effect WorldEffect)) from rfl,
        show st2.rng = (⟨[], []⟩ : Rng) from rfl]
    rw [evalClear]
  exact ⟨rfl, rfl, hc,
    clear_trails_applied_mid_loop clockA false st2 0 pA1 rfl rfl hc⟩

end

end Curvefever
